import Mathlib

deriving instance DecidableEq for Except

/-!
# Verification of the urchin dataset replication control plane

Shallow embedding of `client/daemon/urchin_dataset/urchin_dataset.go` and
`client/urchin_util/util.go` (the urchinfs/urchin repository), together with
models of the parts of the repository whose sources are not available here
(the Redis storage adapter, the dataset-version repository and the constants
shared with them), which are modelled from the specification.

Conventions:
* Go `uint` values are modelled as `Nat`, Go `int` as `Int`; the `int(uint)`
  conversion is modelled with an explicit two's-complement wrap.
* Fallible Go functions return `Except String _`; a Go runtime panic
  (out-of-range slice) is a distinct `GoOutcome.panic` constructor.
* All definitions are structural, so concrete runs evaluate by `decide`/`rfl`.
-/

namespace Urchin

/-! ## Go string primitives used by the source -/

/-- Go `strings.Join(xs, "_")` (the source only joins tags with `"_"`):
concatenation of the element character lists interleaved with `'_'`. -/
def goJoinUnderscore (xs : List String) : String :=
  ⟨List.intercalate ['_'] (xs.map String.data)⟩

/-- Go `strings.Split(s, "_")` for the single-character separator `"_"`
(`Split("", "_") = [""]`, exactly as `List.splitOn` behaves on `[]`). -/
def goSplitUnderscore (s : String) : List String :=
  (s.data.splitOn '_').map fun l => ⟨l⟩

/-- Go `strings.SplitN(s, ".", 2)`: split at the first `'.'` only; a string
without `'.'` yields a one-element list. -/
def goSplitN2Dot (s : String) : List String :=
  match s.data.splitOn '.' with
  | [] => []
  | [x] => [⟨x⟩]
  | x :: rest => [⟨x⟩, ⟨List.intercalate ['.'] rest⟩]

/-- Go `filepath.Join` on Linux for the slash-free, non-empty components the
source passes it: interleave with `"/"`. -/
def filepathJoin (parts : List String) : String :=
  ⟨List.intercalate ['/'] (parts.map String.data)⟩

/-- Go `strings.Contains(s, "_")` specialised to one character. -/
def containsChar (c : Char) (s : String) : Bool := s.data.contains c

/-! ## Decimal integer formatting and parsing

These embed `strconv.FormatInt(·, 10)` / `strconv.Atoi` and the decimal
encoding go-redis applies to integer hash values: both directions are the
canonical decimal representation. -/

/-- Little-endian base-10 digits, fuel-structured so that it reduces in the
kernel; `natDigits_eq` below identifies it with `Nat.digits 10`. -/
def natDigitsAux : Nat → Nat → List Nat
  | 0, _ => []
  | fuel + 1, n => if n = 0 then [] else n % 10 :: natDigitsAux fuel (n / 10)

/-- Little-endian base-10 digits of a `Nat`. -/
def natDigits (n : Nat) : List Nat := natDigitsAux n n

/-- Decimal representation of a `Nat` (the output of `strconv.FormatInt` /
`strconv.FormatUint` on a non-negative value). -/
def natRepr (n : Nat) : String :=
  if n = 0 then "0" else ⟨((natDigits n).map Nat.digitChar).reverse⟩

/-- Value of a decimal digit character. -/
def digitVal (c : Char) : Option Nat :=
  if '0' ≤ c ∧ c ≤ '9' then some (c.toNat - '0'.toNat) else none

/-- Map a fallible function across a list, failing on the first failure. -/
def mapMOption (f : α → Option β) : List α → Option (List β)
  | [] => some []
  | a :: l =>
    match f a with
    | none => none
    | some b =>
      match mapMOption f l with
      | none => none
      | some bs => some (b :: bs)

/-- Parse a non-empty all-digit character list as a `Nat`. -/
def parseDigits (l : List Char) : Option Nat :=
  if l = [] then none
  else
    match mapMOption digitVal l with
    | none => none
    | some ds => some (Nat.ofDigits 10 ds.reverse)

/-- Go `strconv.Atoi` (decimal, optional leading minus sign). -/
def goAtoi (s : String) : Except String Int :=
  match s.data with
  | [] => .error "invalid syntax"
  | c :: rest =>
    if c = '-' then
      match parseDigits rest with
      | none => .error "invalid syntax"
      | some n => .ok (-(n : Int))
    else
      match parseDigits (c :: rest) with
      | none => .error "invalid syntax"
      | some n => .ok (n : Int)

/-- Go `uint(i)` for an `int64` value: two's-complement wrap into `[0, 2^64)`. -/
def uintOfInt (i : Int) : Nat := (i % (2 ^ 64 : Int)).toNat

/-- Go `int(u)` for a `uint64` value: two's-complement reinterpretation. -/
def intOfUint64 (n : Nat) : Int :=
  if n < 2 ^ 63 then (n : Int) else (n : Int) - 2 ^ 64

/-! ## Replicable data sources (`client/urchin_util/util.go`) -/

/-- One seed peer as enumerated by `Dynconfig` (`{Ip, ObjectStoragePort}`). -/
structure SeedPeer where
  ip : String
  objectStoragePort : Int
  deriving DecidableEq, Repr

/-- One scheduler known to `Dynconfig`, exposing its seed peers. -/
structure Scheduler where
  seedPeers : List SeedPeer
  deriving DecidableEq, Repr

/-- The eligible seed-peer hosts collected by `GetReplicableDataSources`
before deduplication: every seed peer of every scheduler whose IP differs
from the local host IP and whose object-storage port is positive, rendered
as `"ip:port"`. -/
def seedPeerHostsRaw (schedulers : List Scheduler) (hostIp : String) : List String :=
  schedulers.flatMap fun s =>
    (s.seedPeers.filter fun p => hostIp ≠ p.ip ∧ p.objectStoragePort > 0).map
      fun p => p.ip ++ ":" ++ toString p.objectStoragePort

/-- `pkg/strings.Unique`: drop duplicates keeping the first occurrence. -/
def uniqueFirstAux (seen : List String) : List String → List String
  | [] => []
  | x :: xs =>
    if x ∈ seen then uniqueFirstAux seen xs
    else x :: uniqueFirstAux (x :: seen) xs

/-- `pkg/strings.Unique`, entry point. -/
def uniqueFirst (l : List String) : List String := uniqueFirstAux [] l

/-- Configuration consumed by the controller: `MaxReplicas`
(`Opt.ObjectStorage.MaxReplicas`, a Go `int`), the local advertise IP, and
the result of `DynConfig.GetSchedulers()` (`none` models its error case). -/
structure ConfInfo where
  maxReplicas : Int
  advertiseIP : String
  schedulers : Option (List Scheduler)
  deriving Repr

/-- `urchin_util.GetReplicableDataSources`: collect, filter and deduplicate
the eligible seed-peer hosts. The source additionally shuffles the result
with `rand.Shuffle`; the nondeterministic shuffle is the explicit
permutation parameter `perm`, which theorems constrain to be a permutation. -/
def GetReplicableDataSources (dyn : Option (List Scheduler)) (hostIp : String)
    (perm : List String → List String) : Except String (List String) :=
  match dyn with
  | none => .error "get schedulers failed"
  | some schedulers => .ok (perm (uniqueFirst (seedPeerHostsRaw schedulers hostIp)))

/-! ## `validateReplica` (`urchin_dataset.go:56-75`) -/

/-- `validateReplica(wantedReplicas)`: reject when `int(wanted) > MaxReplicas`,
fail when the scheduler list is unavailable, reject when
`wanted > uint(len(replicableDataSources))`, accept otherwise. -/
def validateReplica (conf : ConfInfo) (perm : List String → List String)
    (wanted : Nat) : Except String Unit :=
  if intOfUint64 wanted > conf.maxReplicas then
    .error "wanted replicas is large than the max datasource count of system setting"
  else
    match GetReplicableDataSources conf.schedulers conf.advertiseIP perm with
    | .error e => .error e
    | .ok replicable =>
      if wanted > replicable.length then
        .error "wanted replicas is large than replicable datasource count"
      else .ok ()

/-- A concrete configuration: `MaxReplicas = 1`, one remote seed peer with a
positive object-storage port, local IP distinct from it. -/
def conf0 : ConfInfo :=
  { maxReplicas := 1
    advertiseIP := "9.9.9.9"
    schedulers := some [⟨[⟨"1.2.3.4", 80⟩]⟩] }

/-! ## JSON encoding of endpoint lists and host lists

Embeds Go `encoding/json` `Marshal`/`Unmarshal` restricted to the two shapes
the source uses: `[]UrchinEndpoint` and `[]string`.  `Marshal` output is
modelled exactly (Go's extra escaping of control and HTML characters is not
reproduced; no string the claims touch contains those); `Unmarshal` is
modelled on the canonical form `Marshal` produces. -/

/-- The `"` character. -/
def quoteChar : Char := Char.ofNat 34

/-- The `\` character. -/
def backslashChar : Char := Char.ofNat 92

/-- JSON escaping of one character (quote and backslash). -/
def escapeJsonChar (c : Char) : List Char :=
  if c = quoteChar then [backslashChar, quoteChar]
  else if c = backslashChar then [backslashChar, backslashChar]
  else [c]

/-- A JSON string literal for `s`. -/
def jsonQuote (s : String) : String :=
  ⟨quoteChar :: s.data.flatMap escapeJsonChar ++ [quoteChar]⟩

/-- Resolution of a JSON escape sequence `\c`. -/
def unescapeJsonChar (c : Char) : Char :=
  if c = 'n' then Char.ofNat 10
  else if c = 't' then Char.ofNat 9
  else if c = 'r' then Char.ofNat 13
  else c

/-- Parse the remainder of a JSON string literal (the opening quote already
consumed), returning the decoded string and the rest of the input. -/
def parseStringLitAux : List Char → List Char → Option (String × List Char)
  | _, [] => none
  | acc, c :: rest =>
    if c = quoteChar then some (⟨acc.reverse⟩, rest)
    else if c = backslashChar then
      match rest with
      | [] => none
      | e :: rest2 => parseStringLitAux (unescapeJsonChar e :: acc) rest2
    else parseStringLitAux (c :: acc) rest

/-- Parse a JSON string literal at the head of the input. -/
def parseStringLit (l : List Char) : Option (String × List Char) :=
  match l with
  | [] => none
  | c :: rest => if c = quoteChar then parseStringLitAux [] rest else none

/-- Consume an expected literal text at the head of the input. -/
def expectText (s : String) (l : List Char) : Option (List Char) :=
  if s.data.isPrefixOf l then some (l.drop s.data.length) else none

/-- One endpoint record: `(Endpoint, EndpointPath)` where `EndpointPath` has
the form `<bucket>.<object_key>`. -/
structure UrchinEndpoint where
  Endpoint : String
  EndpointPath : String
  deriving DecidableEq, Repr, Inhabited

/-- Go `json.Marshal` of one `UrchinEndpoint`. -/
def jsonEndpointObj (e : UrchinEndpoint) : String :=
  "\x7b" ++ jsonQuote "Endpoint" ++ ":" ++ jsonQuote e.Endpoint ++ "," ++
    jsonQuote "EndpointPath" ++ ":" ++ jsonQuote e.EndpointPath ++ "\x7d"

/-- Go `json.Marshal` of an `[]UrchinEndpoint`. -/
def jsonMarshalEndpoints (l : List UrchinEndpoint) : String :=
  "[" ++ String.intercalate "," (l.map jsonEndpointObj) ++ "]"

/-- Go `json.Marshal` of a `[]string`. -/
def jsonMarshalStrings (l : List String) : String :=
  "[" ++ String.intercalate "," (l.map jsonQuote) ++ "]"

/-- Parse one marshalled endpoint object. -/
def parseEndpointObj (l : List Char) : Option (UrchinEndpoint × List Char) :=
  match expectText ("\x7b" ++ jsonQuote "Endpoint" ++ ":") l with
  | none => none
  | some l1 =>
    match parseStringLit l1 with
    | none => none
    | some (ep, l2) =>
      match expectText ("," ++ jsonQuote "EndpointPath" ++ ":") l2 with
      | none => none
      | some l3 =>
        match parseStringLit l3 with
        | none => none
        | some (path, l4) =>
          match expectText "\x7d" l4 with
          | none => none
          | some l5 => some (⟨ep, path⟩, l5)

/-- Parse a comma-separated sequence of endpoint objects terminated by `]`. -/
def parseEndpointListAux : Nat → List UrchinEndpoint → List Char →
    Option (List UrchinEndpoint)
  | 0, _, _ => none
  | fuel + 1, acc, l =>
    match parseEndpointObj l with
    | none => none
    | some (e, rest) =>
      match rest with
      | [] => none
      | c :: rest2 =>
        if c = ',' then parseEndpointListAux fuel (e :: acc) rest2
        else if c = ']' then if rest2 = [] then some (e :: acc).reverse else none
        else none

/-- Go `json.Unmarshal` into an `[]UrchinEndpoint` (canonical form). -/
def jsonUnmarshalEndpoints (s : String) : Except String (List UrchinEndpoint) :=
  match s.data with
  | [] => .error "unexpected end of JSON input"
  | c :: rest =>
    if c = '[' then
      if rest = [']'] then .ok []
      else
        match parseEndpointListAux (rest.length + 1) [] rest with
        | some l => .ok l
        | none => .error "invalid JSON"
    else .error "invalid JSON"

/-- Parse a comma-separated sequence of string literals terminated by `]`. -/
def parseStringListAux : Nat → List String → List Char → Option (List String)
  | 0, _, _ => none
  | fuel + 1, acc, l =>
    match parseStringLit l with
    | none => none
    | some (s, rest) =>
      match rest with
      | [] => none
      | c :: rest2 =>
        if c = ',' then parseStringListAux fuel (s :: acc) rest2
        else if c = ']' then if rest2 = [] then some (s :: acc).reverse else none
        else none

/-- Go `json.Unmarshal` into a `[]string` (canonical form). -/
def jsonUnmarshalStrings (s : String) : Except String (List String) :=
  match s.data with
  | [] => .error "unexpected end of JSON input"
  | c :: rest =>
    if c = '[' then
      if rest = [']'] then .ok []
      else
        match parseStringListAux (rest.length + 1) [] rest with
        | some l => .ok l
        | none => .error "invalid JSON"
    else .error "invalid JSON"

/-! ## The key-value store

Modelled from the spec: the `urchin_util.RedisStorage` adapter (§4.1 of the
spec; its source file is not part of this corpus).  The store keeps string
keys, hashes, sorted sets and plain sets; the dataset-version repository
(§4.5, `urchin_dataset_vesion`, also absent from the corpus) is modelled as
its own component holding ordered version records per dataset.  In this pure
model store operations do not fail (transport errors are out of scope). -/

/-- One dataset version (`UrchinDataSetVersionInfo`): `meta_sources` and
`meta_caches` are kept as JSON strings, as §4.5 of the spec requires. -/
structure UrchinDataSetVersionInfo where
  id : String
  name : String
  createAt : Int
  MetaSources : String
  MetaCaches : String
  deriving DecidableEq, Repr

/-- The shared store state. -/
structure RedisState where
  strings : List (String × String) := []
  hashes : List (String × List (String × String)) := []
  zsets : List (String × List (String × Int)) := []
  sets : List (String × List String) := []
  versions : List (String × List UrchinDataSetVersionInfo) := []
  deriving DecidableEq, Repr

/-- Association-list lookup by key. -/
def lookupA : List (String × α) → String → Option α
  | [], _ => none
  | a :: l, k => if a.1 = k then some a.2 else lookupA l k

/-- Association-list insert: overwrite in place, append when new. -/
def insertA : List (String × α) → String → α → List (String × α)
  | [], k, v => [(k, v)]
  | a :: l, k, v => if a.1 = k then (k, v) :: l else a :: insertA l k v

/-- Association-list removal. -/
def removeA (l : List (String × α)) (k : String) : List (String × α) :=
  l.filter fun p => p.1 ≠ k

/-- Colon-join of key segments. -/
def joinColon : List String → String
  | [] => ""
  | [x] => x
  | x :: xs => x ++ ":" ++ joinColon xs

/-- `MakeStorageKey(segments, namespacePrefix)`: colon-joined composite key,
the namespace omitted when empty (modelled from the spec's key grammar,
§4.1/§6). -/
def makeStorageKey (segments : List String) (ns : String) : String :=
  joinColon (if ns = "" then segments else ns :: segments)

/-- The dataset namespace `StoragePrefixDataset` (spec §6). -/
def StoragePrefixDataset : String := "urchin:dataset"

/-- The creation-time sorted-set key `DatasetCreateTimeKey` (spec §6). -/
def DatasetCreateTimeKey : String := "urchin:dataset:create_time"

/-- The distinguished default version id (`DefaultDatasetVersion`; its
concrete value is immaterial to every claim). -/
def DefaultDatasetVersion : String := "default"

/-- `Get` on a string key (`none` when absent). -/
def redisGetStr (st : RedisState) (key : String) : Option String :=
  lookupA st.strings key

/-- `Set` on a string key. -/
def redisSetStr (st : RedisState) (key v : String) : RedisState :=
  { st with strings := insertA st.strings key v }

/-- `Del`: remove the key from every kind of store (Redis `DEL` is untyped). -/
def redisDel (st : RedisState) (key : String) : RedisState :=
  { st with
      strings := removeA st.strings key
      hashes := removeA st.hashes key
      zsets := removeA st.zsets key
      sets := removeA st.sets key }

/-- `Exists` on a string key (the source only tests string keys this way in
the code the claims cover). -/
def redisExistsStr (st : RedisState) (key : String) : Bool :=
  (lookupA st.strings key).isSome

/-- `ReadMap`: all fields of a hash; an absent key reads as the empty map,
exactly as Redis `HGETALL` behaves. -/
def readMap (st : RedisState) (key : String) : List (String × String) :=
  (lookupA st.hashes key).getD []

/-- `GetMapElement`: one field of a hash, the empty string when absent. -/
def getMapElement (st : RedisState) (key field : String) : String :=
  (lookupA (readMap st key) field).getD ""

/-- `SetMapElement`: write one field of a hash. -/
def setMapElement (st : RedisState) (key field v : String) : RedisState :=
  { st with hashes := insertA st.hashes key (insertA (readMap st key) field v) }

/-- `SetMapElements`: write several fields of a hash. -/
def setMapElements (st : RedisState) (key : String)
    (values : List (String × String)) : RedisState :=
  values.foldl (fun s kv => setMapElement s key kv.1 kv.2) st

/-- `DeleteMap`: drop a hash. -/
def deleteMap (st : RedisState) (key : String) : RedisState :=
  { st with hashes := removeA st.hashes key }

/-- `ZAdd`: insert or rescore a member of a sorted set. -/
def zAdd (st : RedisState) (key member : String) (score : Int) : RedisState :=
  { st with zsets := insertA st.zsets key (insertA ((lookupA st.zsets key).getD []) member score) }

/-- `ZRem`: remove a member of a sorted set. -/
def zRem (st : RedisState) (key member : String) : RedisState :=
  { st with zsets := insertA st.zsets key (removeA ((lookupA st.zsets key).getD []) member) }

/-- Insertion sort by a boolean comparator (used to model Redis orderings). -/
def insertSorted (le : α → α → Bool) (x : α) : List α → List α
  | [] => [x]
  | y :: ys => if le x y then x :: y :: ys else y :: insertSorted le x ys

/-- Insertion sort, entry point. -/
def sortByBool (le : α → α → Bool) : List α → List α
  | [] => []
  | x :: xs => insertSorted le x (sortByBool le xs)

/-- Sorted-set ascending order: by score, ties lexicographically by member. -/
def zLe (a b : String × Int) : Bool :=
  decide (a.2 < b.2) || (decide (a.2 = b.2) && decide (a.1 ≤ b.1))

/-- `ZRangeByScore(lo, hi, offset, count)`: ascending members whose score lies
in `[lo, hi]`, paged. -/
def zRangeByScore (st : RedisState) (key : String) (lo hi : Int)
    (offset count : Nat) : List String :=
  ((((sortByBool zLe ((lookupA st.zsets key).getD [])).filter
      fun p => lo ≤ p.2 ∧ p.2 ≤ hi).drop offset).take count).map Prod.fst

/-- `ZRevRangeByScore(lo, hi, offset, count)`: the same range, descending. -/
def zRevRangeByScore (st : RedisState) (key : String) (lo hi : Int)
    (offset count : Nat) : List String :=
  ((((sortByBool zLe ((lookupA st.zsets key).getD [])).reverse.filter
      fun p => lo ≤ p.2 ∧ p.2 ≤ hi).drop offset).take count).map Prod.fst

/-- `CreateDataSetVersionImpl` (modelled from the spec, §4.5): append the
version record for the dataset. -/
def createDataSetVersionImpl (st : RedisState) (dataSetID : String)
    (v : UrchinDataSetVersionInfo) : RedisState :=
  { st with versions :=
      insertA st.versions dataSetID (((lookupA st.versions dataSetID).getD []) ++ [v]) }

/-- `ListAllDataSetVersions` (modelled from the spec, §4.5). -/
def listAllDataSetVersions (st : RedisState) (dataSetID : String) :
    List UrchinDataSetVersionInfo :=
  (lookupA st.versions dataSetID).getD []

/-- `UpdateDataSetVersionImpl` patching `MetaCaches` (modelled from the spec,
§4.5: only fields present in the patch are written; the replication flows
patch only `MetaCaches`). -/
def updateVersionMetaCaches (st : RedisState) (dataSetID versionID mc : String) :
    RedisState :=
  { st with
      versions :=
        insertA st.versions dataSetID
          (((lookupA st.versions dataSetID).getD []).map
            fun v => if v.id = versionID then { v with MetaCaches := mc } else v) }

/-! ## Dataset records and their decoding (`urchin_dataset.go`) -/

/-- The replica-state constants (`urchin_dataset.go:28-33`). -/
def ReplicaNoScale : Nat := 0

/-- `ReplicaScaleUP` constant. -/
def ReplicaScaleUP : Nat := 1

/-- `ReplicaScaleDown` constant. -/
def ReplicaScaleDown : Nat := 2

/-- The structured dataset record (`UrchinDataSetInfo`), with the fields
`GetDataSetImpl` decodes. -/
structure UrchinDataSetInfo where
  Id : String := ""
  Name : String := ""
  Desc : String := ""
  Replica : Nat := 0
  CacheStrategy : String := ""
  Tags : List String := []
  ShareBlobSources : List UrchinEndpoint := []
  ShareBlobCaches : List UrchinEndpoint := []
  deriving DecidableEq, Repr

/-- Decoding of one hash field into the record (the loop body of
`GetDataSetImpl` / `getDataSetById`, `urchin_dataset.go:769-794`): `tags`
split on `_`, the endpoint lists JSON-decoded, `replica` parsed by `Atoi` and
converted to `uint`, unknown fields ignored. -/
def decodeField (ds : UrchinDataSetInfo) (kv : String × String) :
    Except String UrchinDataSetInfo :=
  let k := kv.1
  let v := kv.2
  if k = "tags" then .ok { ds with Tags := goSplitUnderscore v }
  else if k = "share_blob_sources" then
    match jsonUnmarshalEndpoints v with
    | .error e => .error e
    | .ok l => .ok { ds with ShareBlobSources := l }
  else if k = "share_blob_caches" then
    match jsonUnmarshalEndpoints v with
    | .error e => .error e
    | .ok l => .ok { ds with ShareBlobCaches := l }
  else if k = "id" then .ok { ds with Id := v }
  else if k = "name" then .ok { ds with Name := v }
  else if k = "desc" then .ok { ds with Desc := v }
  else if k = "replica" then
    match goAtoi v with
    | .error e => .error e
    | .ok i => .ok { ds with Replica := uintOfInt i }
  else if k = "cache_strategy" then .ok { ds with CacheStrategy := v }
  else .ok ds

/-- Decode a full hash into a record, failing on the first bad field. -/
def decodeDataSet (elements : List (String × String)) :
    Except String UrchinDataSetInfo :=
  elements.foldlM decodeField {}

/-- `GetDataSetImpl` (`urchin_dataset.go:749-797`).  When the stored `id`
field does not match the requested id the source logs a warning and executes
`return UrchinDataSetInfo{}, err` — at that point `err` is `nil`, so the
result is a success carrying the empty record. -/
def GetDataSetImpl (st : RedisState) (dataSetID : String) :
    Except String UrchinDataSetInfo :=
  if dataSetID = "" then .error "dataSet ID is empty"
  else
    let elements := readMap st (makeStorageKey [dataSetID] StoragePrefixDataset)
    if (lookupA elements "id").getD "" ≠ dataSetID then .ok {}
    else decodeDataSet elements

/-- `getDataSetById` (`urchin_dataset.go:799-836`): like `GetDataSetImpl` but
with neither the empty-id guard nor the stored-id check. -/
def getDataSetById (st : RedisState) (dataSetID : String) :
    Except String UrchinDataSetInfo :=
  decodeDataSet (readMap st (makeStorageKey [dataSetID] StoragePrefixDataset))

/-- The store writes of `CreateDataSet` (`urchin_dataset.go:98-158`), after a
successful bind and `validateReplica`, for a generated `dataSetID` and
current time `curTime`: primary hash (with `replica` clamped up to 1 and
empty endpoint lists), creation-time sorted set entry, name-prefix key iff
the name is non-empty, tag-prefix key iff the tag list is non-empty, and the
default dataset version. -/
def CreateDataSetStore (st : RedisState) (dataSetID : String) (curTime : Int)
    (name desc : String) (replica : Nat) (cacheStrategy : String)
    (tags : List String) : RedisState :=
  let datasetKey := makeStorageKey [dataSetID] StoragePrefixDataset
  let values : List (String × String) :=
    [("id", dataSetID), ("name", name), ("desc", desc),
     ("replica", if replica ≤ 0 then natRepr 1 else natRepr replica),
     ("cache_strategy", cacheStrategy),
     ("tags", goJoinUnderscore tags),
     ("share_blob_sources", "[]"),
     ("share_blob_caches", "[]"),
     ("replica_state", natRepr ReplicaNoScale),
     ("create_time", natRepr curTime.toNat),
     ("update_time", natRepr curTime.toNat)]
  let st1 := setMapElements st datasetKey values
  let st2 := zAdd st1 DatasetCreateTimeKey dataSetID curTime
  let st3 :=
    if name.length > 0 then
      redisSetStr st2
        (makeStorageKey [dataSetID, "match_prefix_name", name] StoragePrefixDataset) name
    else st2
  let st4 :=
    if tags.length > 0 then
      redisSetStr st3
        (makeStorageKey [dataSetID, "match_prefix_tags", goJoinUnderscore tags]
          StoragePrefixDataset) (goJoinUnderscore tags)
    else st3
  createDataSetVersionImpl st4 dataSetID
    { id := DefaultDatasetVersion, name := "default dataset version",
      createAt := curTime, MetaSources := "", MetaCaches := "" }

/-- The store mutation of `DeleteDataSet` (`urchin_dataset.go:410-477`):
delete the name-prefix key (iff the stored name is non-empty), the tag-prefix
key (iff the stored joined tags are non-empty), the creation-time sorted-set
entry, and the primary hash. -/
def DeleteDataSetStore (st : RedisState) (dataSetID : String) : RedisState :=
  let datasetKey := makeStorageKey [dataSetID] StoragePrefixDataset
  let name := getMapElement st datasetKey "name"
  let st1 :=
    if name.length > 0 then
      redisDel st (makeStorageKey [dataSetID, "match_prefix_name", name] StoragePrefixDataset)
    else st
  let tags := getMapElement st1 datasetKey "tags"
  let st2 :=
    if tags.length > 0 then
      redisDel st1 (makeStorageKey [dataSetID, "match_prefix_tags", tags] StoragePrefixDataset)
    else st1
  let st3 := zRem st2 DatasetCreateTimeKey dataSetID
  let st4 := deleteMap st3 datasetKey
  redisDel st4 datasetKey

/-! ## Replication controller (`UpdateDataSetImpl` and helpers)

Outbound HTTP activity is recorded as an event trace; responses come from an
explicit oracle list, one entry consumed per request.  A Go runtime panic
(out-of-range slice) is the distinct outcome `GoOutcome.crash`. -/

/-- Outcome of a Go function: normal value, returned error, or runtime panic. -/
inductive GoOutcome (α : Type) where
  | ok (a : α)
  | fail (msg : String)
  | crash (msg : String)
  deriving DecidableEq, Repr

/-- Whether an outcome is a runtime panic. -/
def GoOutcome.isCrash : GoOutcome α → Bool
  | .crash _ => true
  | _ => false

/-- Go `l[0:n]`: the first `n` elements, panicking when `n > len(l)`. -/
def goSliceTake (l : List α) (n : Nat) : GoOutcome (List α) :=
  if n ≤ l.length then .ok (l.take n) else .crash "slice bounds out of range"

/-- One observable action of the controller. -/
inductive Event where
  | dirWrite (key value : String)
  | destroyReq (host path : String)
  | cacheReq (host path : String)
  | checkReq (host path : String)
  | sleep (seconds : Nat)
  deriving DecidableEq, Repr

/-- The JSON body of a `check_folder` response
(`{StatusCode, DataEndpoint, DataRoot, DataPath}`). -/
structure CheckBody where
  StatusCode : Int
  DataEndpoint : String
  DataRoot : String
  DataPath : String
  deriving DecidableEq, Repr

/-- An HTTP response as seen by the controller: transport failure, or a
status code with (for `check_folder`) the decoded body, `none` when the body
is not valid JSON. -/
inductive HttpResp where
  | transErr
  | resp (status : Nat) (body : Option CheckBody)
  deriving DecidableEq, Repr

/-- `containsString` (`urchin_dataset.go:1078-1085`). -/
def containsString (src : List String) (dest : String) : Bool :=
  src.any fun item => item = dest

/-- `differenceSlice` (`urchin_dataset.go:1087-1095`): elements of `src` not
contained in `dest`, in order. -/
def differenceSlice (src dest : List String) : List String :=
  src.filter fun item => ¬ containsString dest item

/-- `setReplicaState` (`urchin_dataset.go:1272-1283`). -/
def setReplicaState (st : RedisState) (dataSetID : String) (state : Nat) :
    RedisState :=
  setMapElement st (makeStorageKey [dataSetID] StoragePrefixDataset)
    "replica_state" (natRepr state)

/-- `getReplicaHosts` (`urchin_dataset.go:1097-1120`): a missing directory
key is an error; otherwise the JSON host array is decoded. -/
def getReplicaHosts (st : RedisState) (dataSetID : String) :
    Except String (List String) :=
  let replicaKey := makeStorageKey ["replica", "seed-peer", dataSetID] ""
  match redisGetStr st replicaKey with
  | none => .error "internal error: can not find dataset"
  | some v => jsonUnmarshalStrings v

/-- `updateRedisReplicaInfo` (`urchin_dataset.go:1172-1187`). -/
def updateRedisReplicaInfo (st : RedisState) (dataSetID : String)
    (hosts : List String) : RedisState :=
  redisSetStr st (makeStorageKey ["replica", "seed-peer", dataSetID] "")
    (jsonMarshalStrings hosts)

/-- `selectScaleUpReplicaHosts` (`urchin_dataset.go:1122-1145`): after the
replicable-count guard, the source slices
`differenceSlice(replicable, hosts)[0 : wanted-now]` WITHOUT checking that
the difference holds `wanted - now` elements — an out-of-range slice panics. -/
def selectScaleUpReplicaHosts (conf : ConfInfo) (perm : List String → List String)
    (st : RedisState) (dataSetID : String) (wanted now : Nat) :
    GoOutcome (List String × List String) :=
  match getReplicaHosts st dataSetID with
  | .error e => .fail e
  | .ok replicaHosts =>
    match GetReplicableDataSources conf.schedulers conf.advertiseIP perm with
    | .error e => .fail e
    | .ok replicable =>
      if wanted > replicable.length then
        .fail "wanted replicas is large than replicable datasource count"
      else
        match goSliceTake (differenceSlice replicable replicaHosts) (wanted - now) with
        | .crash m => .crash m
        | .fail m => .fail m
        | .ok scaleUps => .ok (replicaHosts, scaleUps)

/-- `selectScaleDownReplicaHosts` (`urchin_dataset.go:1147-1170`): slice the
kept hosts (panicking when fewer than `wanted` are stored), persist them to
the directory key, and return the surplus hosts. -/
def selectScaleDownReplicaHosts (st : RedisState) (dataSetID : String)
    (wanted : Nat) : GoOutcome (List String) × RedisState × List Event :=
  match getReplicaHosts st dataSetID with
  | .error e => (.fail e, st, [])
  | .ok replicaHosts =>
    match goSliceTake replicaHosts wanted with
    | .crash m => (.crash m, st, [])
    | .fail m => (.fail m, st, [])
    | .ok keep =>
      let jsonBody := jsonMarshalStrings keep
      let replicaKey := makeStorageKey ["replica", "seed-peer", dataSetID] ""
      (.ok (replicaHosts.drop wanted), redisSetStr st replicaKey jsonBody,
        [.dirWrite replicaKey jsonBody])

/-- The `updateDataSetFunc` closure (`urchin_dataset.go:523-609`): write each
field only when the patch carries it; a tags change also swaps the tag-prefix
key; `update_time` is always rewritten. -/
def updateDataSetFunc (st : RedisState) (dataSetID dataSetName dataSetDesc : String)
    (wantedReplica : Nat) (cacheStrategy : String) (dataSetTags : List String)
    (shareBlobSources shareBlobCaches : List UrchinEndpoint) (curTime : Int) :
    RedisState :=
  let datasetKey := makeStorageKey [dataSetID] StoragePrefixDataset
  let st1 :=
    if dataSetName.length > 0 then setMapElement st datasetKey "name" dataSetName
    else st
  let st2 :=
    if dataSetDesc.length > 0 then setMapElement st1 datasetKey "desc" dataSetDesc
    else st1
  let st3 :=
    if wantedReplica > 0 then
      setMapElement st2 datasetKey "replica" (natRepr wantedReplica)
    else st2
  let st4 :=
    if cacheStrategy.length > 0 then
      setMapElement st3 datasetKey "cache_strategy" cacheStrategy
    else st3
  let st5 :=
    if dataSetTags.length > 0 then
      let oldTags := getMapElement st4 datasetKey "tags"
      let sta := redisDel st4
        (makeStorageKey [dataSetID, "match_prefix_tags", oldTags] StoragePrefixDataset)
      let stb := setMapElement sta datasetKey "tags" (goJoinUnderscore dataSetTags)
      redisSetStr stb
        (makeStorageKey [dataSetID, "match_prefix_tags", goJoinUnderscore dataSetTags]
          StoragePrefixDataset) (goJoinUnderscore dataSetTags)
    else st4
  let st6 :=
    if shareBlobSources.length > 0 then
      setMapElement st5 datasetKey "share_blob_sources"
        (jsonMarshalEndpoints shareBlobSources)
    else st5
  let st7 :=
    if shareBlobCaches.length > 0 then
      setMapElement st6 datasetKey "share_blob_caches"
        (jsonMarshalEndpoints shareBlobCaches)
    else st6
  setMapElement st7 datasetKey "update_time" (natRepr curTime.toNat)

/-- The per-version body of `scaleDownDatasetVersionInfo`
(`urchin_dataset.go:1244-1267`): decode `MetaCaches`, skip empty lists,
truncate to `wanted` (panicking when `0 < len < wanted`), re-encode, patch. -/
def scaleDownVersionsLoop (dataSetID : String) (wanted : Nat) :
    RedisState → List UrchinDataSetVersionInfo → GoOutcome RedisState
  | st, [] => .ok st
  | st, v :: rest =>
    match jsonUnmarshalEndpoints v.MetaCaches with
    | .error e => .fail e
    | .ok metaCaches =>
      if metaCaches.length ≤ 0 then scaleDownVersionsLoop dataSetID wanted st rest
      else
        match goSliceTake metaCaches wanted with
        | .crash m => .crash m
        | .fail m => .fail m
        | .ok mc =>
          scaleDownVersionsLoop dataSetID wanted
            (updateVersionMetaCaches st dataSetID v.id (jsonMarshalEndpoints mc)) rest

/-- `scaleDownDatasetVersionInfo` (`urchin_dataset.go:1237-1270`): an empty
version list takes the `return err` path with `err = nil` — a success. -/
def scaleDownDatasetVersionInfo (st : RedisState) (dataSetID : String)
    (wanted : Nat) : GoOutcome RedisState :=
  let versions := listAllDataSetVersions st dataSetID
  if versions.length < 1 then .ok st
  else scaleDownVersionsLoop dataSetID wanted st versions

/-- `destroySeedPeerDataset`'s request path
(`urchin_dataset.go:951-976`). -/
def destroyPath (bucketName folderKey : String) : String :=
  filepathJoin ["buckets", bucketName, "destroy_folder", folderKey]

/-- The scale-down destroy loop (`urchin_dataset.go:660-666`): one DELETE per
surplus host; a failed call is logged and skipped (`continue`), so the
dispatched requests do not depend on the per-call outcomes in `oracle`. -/
def scaleDownDestroyLoop (hosts : List String) (bucketName folderKey : String)
    (oracle : List Bool) : List Event :=
  match hosts with
  | [] => []
  | h :: rest =>
    .destroyReq h (destroyPath bucketName folderKey) ::
      scaleDownDestroyLoop rest bucketName folderKey oracle.tail

/-- The `cache_folder` request path (`urchin_dataset.go:978-983`). -/
def cachePath (bucketName folderKey : String) : String :=
  filepathJoin ["buckets", bucketName, "cache_folder", folderKey]

/-- The `check_folder` request path (`urchin_dataset.go:1005-1009`). -/
def checkPath (bucketName folderKey : String) : String :=
  filepathJoin ["buckets", bucketName, "check_folder", folderKey]

/-- Interpretation of a decoded `check_folder` body
(`urchin_dataset.go:1039-1059`): `StatusCode = 1` sleeps 20 s and yields
`none` (continue polling); any other non-zero code is an error;
`StatusCode = 0` yields the endpoint record
`(DataEndpoint, DataRoot ++ "." ++ DataPath)`. -/
def readCheckBody (events : List Event) (rest : List HttpResp)
    (body : Option CheckBody) :
    List Event × List HttpResp × Except String (Option UrchinEndpoint) :=
  match body with
  | none => (events, rest, .error "invalid JSON body")
  | some b =>
    if b.StatusCode = 1 then (events ++ [.sleep 20], rest, .ok none)
    else if b.StatusCode ≠ 0 then (events, rest, .error "bad response status")
    else (events, rest,
      .ok (some ⟨b.DataEndpoint, b.DataRoot ++ "." ++ b.DataPath⟩))

/-- `checkObjectStatus` (`urchin_dataset.go:1004-1061`): one GET; a transport
error returns immediately; a non-2xx status sleeps 2 s and retries exactly
once, a transport error or second non-2xx on the retry surfacing as error;
otherwise the body is interpreted by `readCheckBody`. -/
def checkObjectStatus (host bucketName folderKey : String)
    (oracle : List HttpResp) :
    List Event × List HttpResp × Except String (Option UrchinEndpoint) :=
  let p := checkPath bucketName folderKey
  match oracle.headD .transErr with
  | .transErr => ([.checkReq host p], oracle.tail, .error "transport error")
  | .resp status body =>
    if status / 100 ≠ 2 then
      match oracle.tail.headD .transErr with
      | .transErr =>
        ([.checkReq host p, .sleep 2, .checkReq host p], oracle.tail.tail,
          .error "transport error")
      | .resp status2 body2 =>
        if status2 / 100 ≠ 2 then
          ([.checkReq host p, .sleep 2, .checkReq host p], oracle.tail.tail,
            .error "bad response status")
        else
          readCheckBody [.checkReq host p, .sleep 2, .checkReq host p]
            oracle.tail.tail body2
    else readCheckBody [.checkReq host p] oracle.tail body

/-- Result of the cache-completion poll. -/
inductive PollResult where
  | found (e : UrchinEndpoint)
  | failed (msg : String)
  | fuelOut
  deriving DecidableEq, Repr

/-- The polling loop of `scaleUpSeedPeerDataset`
(`urchin_dataset.go:1001-1073`): sleep 3 s, check, propagate errors, loop on
`none` (in-progress), stop on an endpoint. -/
def pollLoop (host bucketName folderKey : String) :
    Nat → List HttpResp → List Event × List HttpResp × PollResult
  | 0, o => ([], o, .fuelOut)
  | fuel + 1, o =>
    match checkObjectStatus host bucketName folderKey o with
    | (evs, o1, .error m) => (.sleep 3 :: evs, o1, .failed m)
    | (evs, o1, .ok (some ep)) => (.sleep 3 :: evs, o1, .found ep)
    | (evs, o1, .ok none) =>
      match pollLoop host bucketName folderKey fuel o1 with
      | (evs2, o2, res) => (.sleep 3 :: evs ++ evs2, o2, res)

/-- `scaleUpSeedPeerDataset` (`urchin_dataset.go:978-1076`): POST the cache
request; a transport error or non-2xx fails; otherwise poll. -/
def scaleUpSeedPeerDataset (host bucketName folderKey : String) (fuel : Nat)
    (oracle : List HttpResp) : List Event × List HttpResp × PollResult :=
  let p := cachePath bucketName folderKey
  match oracle.headD .transErr with
  | .transErr => ([.cacheReq host p], oracle.tail, .failed "transport error")
  | .resp status _ =>
    if status / 100 ≠ 2 then
      ([.cacheReq host p], oracle.tail, .failed "bad response status")
    else
      match pollLoop host bucketName folderKey fuel oracle.tail with
      | (evs, o2, res) => (.cacheReq host p :: evs, o2, res)

/-- Result of the scale-up worker's host loop. -/
inductive WorkerResult where
  | completed (eps : List UrchinEndpoint)
  | aborted (msg : String)
  | fuelOut
  deriving DecidableEq, Repr

/-- The host loop of the detached scale-up worker
(`urchin_dataset.go:696-709`): each host is cached sequentially; on failure
the whole cache-and-poll sequence is retried once after a 5 s sleep, and a
second failure aborts the remainder of the workflow. -/
def scaleUpWorkerLoop (bucketName folderKey : String) (fuel : Nat) :
    List String → List HttpResp → List Event × List HttpResp × WorkerResult
  | [], o => ([], o, .completed [])
  | h :: hs, o =>
    match scaleUpSeedPeerDataset h bucketName folderKey fuel o with
    | (evs1, o1, .found ep) =>
      match scaleUpWorkerLoop bucketName folderKey fuel hs o1 with
      | (evs2, o2, .completed eps) => (evs1 ++ evs2, o2, .completed (ep :: eps))
      | (evs2, o2, res) => (evs1 ++ evs2, o2, res)
    | (evs1, o1, .fuelOut) => (evs1, o1, .fuelOut)
    | (evs1, o1, .failed _) =>
      match scaleUpSeedPeerDataset h bucketName folderKey fuel o1 with
      | (evs2, o2, .found ep) =>
        match scaleUpWorkerLoop bucketName folderKey fuel hs o2 with
        | (evs3, o3, .completed eps) =>
          (evs1 ++ .sleep 5 :: evs2 ++ evs3, o3, .completed (ep :: eps))
        | (evs3, o3, res) => (evs1 ++ .sleep 5 :: evs2 ++ evs3, o3, res)
      | (evs2, o2, .fuelOut) => (evs1 ++ .sleep 5 :: evs2, o2, .fuelOut)
      | (evs2, o2, .failed m2) => (evs1 ++ .sleep 5 :: evs2, o2, .aborted m2)

/-- Go `path.Split`'s file component: everything after the last `/`. -/
def pathBase (s : String) : String :=
  ⟨(s.data.splitOn '/').getLastD []⟩

/-- Go `path.Join` of two components (for the separator-clean inputs the
source passes). -/
def pathJoin2 (a b : String) : String :=
  if a = "" then b else if b = "" then a else a ++ "/" ++ b

/-- The per-version body of `scaleUpDatasetVersionInfo`
(`urchin_dataset.go:1196-1232`): decode both lists, require non-empty
`MetaSources`, append the new cache endpoints with the version's object name
joined onto each endpoint path, re-encode, patch. -/
def scaleUpVersionsLoop (dataSetID : String)
    (scaleUpCachesEndpoint : List UrchinEndpoint) :
    RedisState → List UrchinDataSetVersionInfo → GoOutcome RedisState
  | st, [] => .ok st
  | st, v :: rest =>
    match jsonUnmarshalEndpoints v.MetaCaches with
    | .error e => .fail e
    | .ok metaCaches =>
      match jsonUnmarshalEndpoints v.MetaSources with
      | .error e => .fail e
      | .ok metaSources =>
        if metaSources.length < 1 then .fail "dataset version meta sources is empty"
        else
          let objectName := pathBase (metaSources.headD default).EndpointPath
          let tmp := scaleUpCachesEndpoint.map fun e =>
            { e with EndpointPath := pathJoin2 e.EndpointPath objectName }
          let mc := jsonMarshalEndpoints (metaCaches ++ tmp)
          scaleUpVersionsLoop dataSetID scaleUpCachesEndpoint
            (updateVersionMetaCaches st dataSetID v.id mc) rest

/-- `scaleUpDatasetVersionInfo` (`urchin_dataset.go:1189-1235`): an empty
version list takes the `return err` path with `err = nil`. -/
def scaleUpDatasetVersionInfo (st : RedisState) (dataSetID : String)
    (scaleUpCachesEndpoint : List UrchinEndpoint) : GoOutcome RedisState :=
  let versions := listAllDataSetVersions st dataSetID
  if versions.length < 1 then .ok st
  else scaleUpVersionsLoop dataSetID scaleUpCachesEndpoint st versions

/-- The detached scale-up worker (`urchin_dataset.go:687-733`): cache every
selected host, then patch caches, replica directory (appending the new
hosts) and version records; on any exit the replica state is reset to
`NoScale` by the deferred call. -/
def scaleUpWorker (st : RedisState) (dataSetID : String)
    (old : UrchinDataSetInfo) (replicaHosts scaleUps : List String)
    (bucketName folderKey : String) (dataSetName dataSetDesc : String)
    (wantedReplica : Nat) (cacheStrategy : String) (dataSetTags : List String)
    (shareBlobSources : List UrchinEndpoint) (curTime : Int) (fuel : Nat)
    (oracle : List HttpResp) : List Event × RedisState :=
  match scaleUpWorkerLoop bucketName folderKey fuel scaleUps oracle with
  | (evs, _, .completed eps) =>
    let st1 := updateDataSetFunc st dataSetID dataSetName dataSetDesc
      wantedReplica cacheStrategy dataSetTags shareBlobSources
      (old.ShareBlobCaches ++ eps) curTime
    let newReplicaHosts := replicaHosts ++ scaleUps
    let dirKey := makeStorageKey ["replica", "seed-peer", dataSetID] ""
    let st2 := updateRedisReplicaInfo st1 dataSetID newReplicaHosts
    match scaleUpDatasetVersionInfo st2 dataSetID eps with
    | .ok st3 =>
      (evs ++ [.dirWrite dirKey (jsonMarshalStrings newReplicaHosts)],
        setReplicaState st3 dataSetID ReplicaNoScale)
    | _ =>
      (evs ++ [.dirWrite dirKey (jsonMarshalStrings newReplicaHosts)],
        setReplicaState st2 dataSetID ReplicaNoScale)
  | (evs, _, _) => (evs, setReplicaState st dataSetID ReplicaNoScale)

/-- What the synchronous part of `UpdateDataSetImpl` reports. -/
inductive UpdateResult where
  | done
  | spawned (replicaHosts scaleUps : List String) (bucketName folderKey : String)
  deriving DecidableEq, Repr

/-- The synchronous part of `UpdateDataSetImpl` (`urchin_dataset.go:510-747`).
Scale-down (`wanted < current`) runs inline: state to `ScaleDown` with a
deferred reset that also runs during panic unwinding, host selection (which
persists the trimmed directory), record patch, version truncation, then the
destroy loop whose failures are skipped.  Scale-up runs the host selection
synchronously: state to `ScaleUp`, reset + error on checked failures — but a
panic inside the selection happens before any deferred reset is registered
on this path, leaving the state at `ScaleUp`.  On success the detached
worker (modelled separately as `scaleUpWorker`) is spawned and the call
returns immediately.  Without a replica change only the field patch runs. -/
def UpdateDataSetImpl (conf : ConfInfo) (perm : List String → List String)
    (st : RedisState) (curTime : Int) (dataSetID dataSetName dataSetDesc : String)
    (wantedReplica : Nat) (cacheStrategy : String) (dataSetTags : List String)
    (shareBlobSources shareBlobCaches : List UrchinEndpoint)
    (destroyOracle : List Bool) :
    GoOutcome UpdateResult × RedisState × List Event :=
  match GetDataSetImpl st dataSetID with
  | .error e => (.fail e, st, [])
  | .ok old =>
    if wantedReplica > 0 ∧ old.Replica ≠ wantedReplica then
      if old.ShareBlobSources.length < 1 then
        (.fail "internal error: share blob sources is valid", st, [])
      else
        let sourceEndpoint := (old.ShareBlobSources.headD default).Endpoint
        let sourceBucketObject :=
          goSplitN2Dot (old.ShareBlobSources.headD default).EndpointPath
        if sourceBucketObject.length < 2 then
          (.fail "internal error: share blob sources bucket is valid", st, [])
        else
          let sb0 := sourceBucketObject.headD ""
          let sb1 := (sourceBucketObject.drop 1).headD ""
          if wantedReplica < old.Replica then
            let st1 := setReplicaState st dataSetID ReplicaScaleDown
            match selectScaleDownReplicaHosts st1 dataSetID wantedReplica with
            | (.fail e, st2, tr) =>
              (.fail e, setReplicaState st2 dataSetID ReplicaNoScale, tr)
            | (.crash m, st2, tr) =>
              (.crash m, setReplicaState st2 dataSetID ReplicaNoScale, tr)
            | (.ok dropHosts, st2, tr) =>
              match goSliceTake old.ShareBlobCaches wantedReplica with
              | .crash m =>
                (.crash m, setReplicaState st2 dataSetID ReplicaNoScale, tr)
              | .fail m =>
                (.fail m, setReplicaState st2 dataSetID ReplicaNoScale, tr)
              | .ok caches =>
                let st3 := updateDataSetFunc st2 dataSetID dataSetName
                  dataSetDesc wantedReplica cacheStrategy dataSetTags
                  shareBlobSources caches curTime
                match scaleDownDatasetVersionInfo st3 dataSetID wantedReplica with
                | .fail e =>
                  (.fail e, setReplicaState st3 dataSetID ReplicaNoScale, tr)
                | .crash m =>
                  (.crash m, setReplicaState st3 dataSetID ReplicaNoScale, tr)
                | .ok st4 =>
                  (.ok .done, setReplicaState st4 dataSetID ReplicaNoScale,
                    tr ++ scaleDownDestroyLoop dropHosts sb0 sb1 destroyOracle)
          else
            let st1 := setReplicaState st dataSetID ReplicaScaleUP
            match selectScaleUpReplicaHosts conf perm st1 dataSetID
                wantedReplica old.Replica with
            | .fail e => (.fail e, setReplicaState st1 dataSetID ReplicaNoScale, [])
            | .crash m => (.crash m, st1, [])
            | .ok (replicaHosts, scaleUps) =>
              (.ok (.spawned replicaHosts scaleUps
                  (sb0 ++ "." ++ sourceEndpoint) sb1), st1, [])
    else
      (.ok .done,
        updateDataSetFunc st dataSetID dataSetName dataSetDesc wantedReplica
          cacheStrategy dataSetTags shareBlobSources shareBlobCaches curTime, [])

/-! ## Listing engine (`ListDataSets`, `sortAndBuildResult`) -/

/-- Members of the set or sorted set at `key` (Redis `SORT` accepts both;
modelled from the spec, §4.1). -/
def sortMembers (st : RedisState) (key : String) : List String :=
  match lookupA st.sets key with
  | some ms => ms
  | none => ((lookupA st.zsets key).getD []).map Prod.fst

/-- Redis `SORT key BY urchin:dataset:*->field ALPHA LIMIT offset count`
(modelled from the spec, §4.1): each member is keyed by the hash field
`field` of `urchin:dataset:<member>` and ordered lexicographically. -/
def redisSort (st : RedisState) (sortSetKey field : String)
    (pageIndex pageSize : Nat) (desc : Bool) : List String :=
  let keyed := (sortMembers st sortSetKey).map
    fun m => (getMapElement st (StoragePrefixDataset ++ ":" ++ m) field, m)
  let le := fun (a b : String × String) =>
    if desc then decide (b.1 ≤ a.1) else decide (a.1 ≤ b.1)
  (((sortByBool le keyed).drop pageIndex).take pageSize).map Prod.snd

/-- `sortAndBuildResult` (`urchin_dataset.go:904-943`): default the order
field to `create_time`, sort server-side, then hydrate each id with
`getDataSetById`; a decode error or an id whose record has an empty `id`
field is skipped (`continue`), never failing the request. -/
def sortAndBuildResult (st : RedisState) (orderBy : String) (sortBy : Int)
    (pageIndex pageSize : Nat) (sortSetKey : String) : List UrchinDataSetInfo :=
  let ob := if orderBy = "" then "create_time" else orderBy
  let members := redisSort st sortSetKey ob pageIndex pageSize (sortBy = -1)
  members.foldl
    (fun acc m =>
      match getDataSetById st m with
      | .error _ => acc
      | .ok ds => if ds.Id = "" then acc else acc ++ [ds]) []

/-- The no-search, no-`order_by` branch of `ListDataSets`
(`urchin_dataset.go:267-303`): a raw `ZRangeByScore` (or reverse) page over
the creation-time sorted set, every id hydrated with `getDataSetById` and
appended unconditionally; a decode error fails the request. -/
def listNoSearchNoOrder (st : RedisState) (sortBy : Int)
    (createdAtLess createdAtGreater now : Int) (pageIndex pageSize : Nat) :
    Except String (List UrchinDataSetInfo) :=
  let rangeUpper := if createdAtLess ≠ 0 then createdAtLess else now + 1
  let rangeLower := if createdAtGreater ≠ 0 then createdAtGreater else 0
  let members :=
    if sortBy = 1 then
      zRangeByScore st DatasetCreateTimeKey rangeLower rangeUpper pageIndex pageSize
    else
      zRevRangeByScore st DatasetCreateTimeKey rangeLower rangeUpper pageIndex pageSize
  members.foldlM (fun acc m => (getDataSetById st m).map fun ds => acc ++ [ds]) []

/-! ## Claim C1 -/

/-- C1, counterexample: the claim says `validateReplica(wanted)` accepts iff
`0 < wanted ≤ min(MaxReplicas, |replicable sources|)`, so `wanted = 0` must be
rejected.  With `MaxReplicas = 1` and one replicable source, the code accepts
`wanted = 0` (`0 > MaxReplicas` and `0 > count` are both false), refuting the
claimed equivalence at `wanted = 0`. -/
theorem c1_counterexample :
    ¬ (validateReplica conf0 id 0 = Except.ok () ↔
        0 < 0 ∧ intOfUint64 0 ≤ min conf0.maxReplicas
          ((uniqueFirst (seedPeerHostsRaw [⟨[⟨"1.2.3.4", 80⟩]⟩] conf0.advertiseIP)).length : Int)) := by
  decide

/-- C1, amended: whenever `Dynconfig.GetSchedulers` succeeds and the shuffle
is a length-preserving permutation, `validateReplica(wanted)` accepts iff
`int(wanted) ≤ MaxReplicas` and `wanted ≤` the number of replicable data
sources (seed peers with IP distinct from the local advertise IP and positive
object-storage port, counted without duplicates).  There is no positivity
requirement: `wanted = 0` is accepted whenever `MaxReplicas ≥ 0`. -/
theorem c1_validateReplica_accepts_iff (conf : ConfInfo) (scheds : List Scheduler)
    (perm : List String → List String) (wanted : Nat)
    (hs : conf.schedulers = some scheds)
    (hperm : ∀ l, (perm l).length = l.length) :
    validateReplica conf perm wanted = Except.ok () ↔
      intOfUint64 wanted ≤ conf.maxReplicas ∧
        wanted ≤ (uniqueFirst (seedPeerHostsRaw scheds conf.advertiseIP)).length := by
  unfold validateReplica GetReplicableDataSources
  rw [hs]
  by_cases h1 : intOfUint64 wanted > conf.maxReplicas
  · simp only [h1, if_true]
    constructor
    · intro h; cases h
    · intro h; omega
  · by_cases h2 : wanted > (uniqueFirst (seedPeerHostsRaw scheds conf.advertiseIP)).length
    · have h2' : wanted > (perm (uniqueFirst (seedPeerHostsRaw scheds conf.advertiseIP))).length := by
        rw [hperm]; exact h2
      simp only [h1, if_false, h2', if_true]
      constructor
      · intro h; cases h
      · intro h; omega
    · have h2' : ¬ wanted > (perm (uniqueFirst (seedPeerHostsRaw scheds conf.advertiseIP))).length := by
        rw [hperm]; exact h2
      simp only [h1, if_false, h2', if_true]
      constructor
      · intro _; exact ⟨by omega, by omega⟩
      · intro _; trivial

/-- C1, witness: the amended equivalence applied at the concrete configuration
`conf0` with `wanted = 1`, the identity permutation discharging the shuffle
hypothesis. -/
theorem c1_witness : validateReplica conf0 id 1 = Except.ok () :=
  (c1_validateReplica_accepts_iff conf0 [⟨[⟨"1.2.3.4", 80⟩]⟩] id 1 rfl
    (fun _ => rfl)).mpr (by decide)

/-! ## Association-list and round-trip lemmas -/

theorem lookupA_insertA_self (l : List (String × α)) (k : String) (v : α) :
    lookupA (insertA l k v) k = some v := by
  induction l with
  | nil => simp [insertA, lookupA]
  | cons a l ih =>
    by_cases ha : a.1 = k
    · simp [insertA, ha, lookupA]
    · simp [insertA, ha, lookupA, ih]

theorem lookupA_insertA_ne (l : List (String × α)) (k k' : String) (v : α)
    (h : k' ≠ k) : lookupA (insertA l k v) k' = lookupA l k' := by
  have hkk : ¬ (k = k') := fun hh => h hh.symm
  induction l with
  | nil => simp [insertA, lookupA, hkk]
  | cons a l ih =>
    by_cases ha : a.1 = k
    · have ha2 : ¬ (a.1 = k') := by rw [ha]; exact hkk
      simp [insertA, lookupA, ha, hkk, ha2]
    · by_cases ha' : a.1 = k'
      · simp [insertA, lookupA, ha, ha', h]
      · simp [insertA, lookupA, ha, ha', h, ih]

theorem lookupA_removeA_self (l : List (String × α)) (k : String) :
    lookupA (removeA l k) k = none := by
  induction l with
  | nil => simp [removeA, lookupA]
  | cons a l ih =>
    by_cases ha : a.1 = k
    · simpa [removeA, List.filter_cons, ha, lookupA] using ih
    · simpa [removeA, List.filter_cons, ha, lookupA] using ih

theorem lookupA_removeA_ne (l : List (String × α)) (k k' : String)
    (h : k' ≠ k) : lookupA (removeA l k) k' = lookupA l k' := by
  have hkk : ¬ (k = k') := fun hh => h hh.symm
  induction l with
  | nil => simp [removeA, lookupA]
  | cons a l ih =>
    by_cases ha : a.1 = k
    · have ha2 : ¬ (a.1 = k') := by rw [ha]; exact hkk
      simp [removeA, List.filter_cons, ha, lookupA, ha2, hkk, h] at ih ⊢
      exact ih
    · by_cases ha' : a.1 = k'
      · simp [removeA, List.filter_cons, ha, lookupA, ha', hkk, h]
      · simp [removeA, List.filter_cons, ha, lookupA, ha', hkk, h] at ih ⊢
        exact ih

theorem natDigitsAux_eq (fuel n : Nat) (h : n ≤ fuel) :
    natDigitsAux fuel n = Nat.digits 10 n := by
  induction fuel generalizing n with
  | zero =>
    have : n = 0 := by omega
    subst this
    simp [natDigitsAux]
  | succ fuel ih =>
    by_cases hn : n = 0
    · subst hn; simp [natDigitsAux]
    · rw [natDigitsAux, if_neg hn,
        Nat.digits_def' (by norm_num : (1 : Nat) < 10) (Nat.pos_of_ne_zero hn)]
      have hdiv : n / 10 ≤ fuel := by
        have := Nat.div_lt_self (Nat.pos_of_ne_zero hn) (by norm_num : 1 < 10)
        omega
      rw [ih _ hdiv]

theorem natDigits_eq (n : Nat) : natDigits n = Nat.digits 10 n :=
  natDigitsAux_eq n n (Nat.le_refl n)

theorem digitVal_digitChar (d : Nat) (h : d < 10) :
    digitVal (Nat.digitChar d) = some d := by
  interval_cases d <;> rfl

theorem mapMOption_digitVal_map (ds : List Nat) (h : ∀ d ∈ ds, d < 10) :
    mapMOption digitVal (ds.map Nat.digitChar) = some ds := by
  induction ds with
  | nil => rfl
  | cons d ds ih =>
    have hd := digitVal_digitChar d (h d (by simp))
    have hrest := ih fun x hx => h x (by simp [hx])
    simp [mapMOption, hd, hrest]

theorem goAtoi_natRepr (n : Nat) : goAtoi (natRepr n) = Except.ok (n : Int) := by
  by_cases hn : n = 0
  · subst hn; decide
  · have hne : natDigits n ≠ [] := by
      rw [natDigits_eq]
      simpa using Nat.digits_ne_nil_iff_ne_zero.mpr hn
    have hlt : ∀ d ∈ natDigits n, d < 10 := by
      intro d hd
      rw [natDigits_eq] at hd
      exact Nat.digits_lt_base (by norm_num) hd
    have hrev : ((natDigits n).map Nat.digitChar).reverse =
        (natDigits n).reverse.map Nat.digitChar := by
      rw [List.map_reverse]
    rcases hcons : (natDigits n).reverse.map Nat.digitChar with _ | ⟨c, cs⟩
    · exfalso
      have h1 : (natDigits n).reverse = [] := by
        have := congrArg List.length hcons
        simpa using this
      exact hne (by simpa using congrArg List.reverse h1)
    · have hc : ∃ d, d < 10 ∧ c = Nat.digitChar d := by
        have hmem : c ∈ (natDigits n).reverse.map Nat.digitChar := by
          rw [hcons]; simp
        rcases List.mem_map.mp hmem with ⟨d, hd, hcd⟩
        exact ⟨d, hlt d (List.mem_reverse.mp hd), hcd.symm⟩
      rcases hc with ⟨d, hd10, hcd⟩
      have hcne : c ≠ '-' := by
        subst hcd
        interval_cases d <;> decide
      have hparse : parseDigits (c :: cs) = some n := by
        have hmapM : mapMOption digitVal (c :: cs) = some (natDigits n).reverse := by
          rw [← hcons,
            mapMOption_digitVal_map _ fun d hd => hlt d (List.mem_reverse.mp hd)]
        rw [parseDigits, if_neg (by simp)]
        simp only [hmapM]
        rw [List.reverse_reverse, natDigits_eq, Nat.ofDigits_digits]
      rw [natRepr, if_neg hn, goAtoi]
      simp only [hrev, hcons]
      rw [if_neg hcne, hparse]

theorem uintOfInt_natCast (n : Nat) (h : n < 2 ^ 64) :
    uintOfInt (n : Int) = n := by
  unfold uintOfInt
  rw [Int.emod_eq_of_lt (by positivity) (by exact_mod_cast h)]
  simp

theorem goSplit_goJoin (tags : List String) (hne : tags ≠ [])
    (hu : ∀ t ∈ tags, containsChar '_' t = false) :
    goSplitUnderscore (goJoinUnderscore tags) = tags := by
  unfold goSplitUnderscore goJoinUnderscore
  have hx : ∀ l ∈ tags.map String.data, '_' ∉ l := by
    intro l hl
    rcases List.mem_map.mp hl with ⟨t, ht, rfl⟩
    have := hu t ht
    simp [containsChar] at this
    simpa using this
  have hls : tags.map String.data ≠ [] := by
    simpa using hne
  show ((List.intercalate ['_'] (tags.map String.data)).splitOn '_').map
      (fun l => String.mk l) = tags
  rw [List.splitOn_intercalate (tags.map String.data) '_' hx hls]
  have hcomp : ((fun l => ({ data := l } : String)) ∘ String.data) = id :=
    funext fun _ => rfl
  rw [List.map_map, hcomp, List.map_id]

theorem exceptBind_ok (x : α) (f : α → Except ε β) :
    (Except.ok x : Except ε α) >>= f = f x := rfl

theorem jsonUnmarshalEndpoints_empty : jsonUnmarshalEndpoints "[]" = Except.ok [] := rfl

theorem hashes_ite (c : Prop) [Decidable c] (a b : RedisState) :
    (ite c a b).hashes = ite c a.hashes b.hashes := by split <;> rfl

theorem readMap_create (idv : String) (t : Int) (n d : String) (r : Nat)
    (cs : String) (tg : List String) :
    readMap (CreateDataSetStore {} idv t n d r cs tg)
      (makeStorageKey [idv] StoragePrefixDataset) =
    [("id", idv), ("name", n), ("desc", d),
     ("replica", if r = 0 then natRepr 1 else natRepr r),
     ("cache_strategy", cs), ("tags", goJoinUnderscore tg),
     ("share_blob_sources", "[]"), ("share_blob_caches", "[]"),
     ("replica_state", natRepr ReplicaNoScale),
     ("create_time", natRepr t.toNat), ("update_time", natRepr t.toNat)] := by
  simp [CreateDataSetStore, setMapElements, setMapElement, readMap, zAdd,
    redisSetStr, createDataSetVersionImpl, lookupA, insertA, hashes_ite]

/-- The record `GetDataSetImpl` reads back right after `CreateDataSetStore`. -/
def createdRecord (idv n d : String) (r : Nat) (cs : String) (tg : List String) :
    UrchinDataSetInfo :=
  { Id := idv
    Name := n
    Desc := d
    Replica := if r = 0 then 1 else r
    CacheStrategy := cs
    Tags := goSplitUnderscore (goJoinUnderscore tg) }

theorem getDataSet_after_create (idv : String) (t : Int) (n d : String) (r : Nat)
    (cs : String) (tg : List String) (hid : idv ≠ "") (hr : r < 2 ^ 64) :
    GetDataSetImpl (CreateDataSetStore {} idv t n d r cs tg) idv =
      Except.ok (createdRecord idv n d r cs tg) := by
  rw [GetDataSetImpl, if_neg hid, readMap_create]
  have h1 : goAtoi (natRepr 1) = Except.ok (1 : Int) := goAtoi_natRepr 1
  have hrr : goAtoi (natRepr r) = Except.ok (r : Int) := goAtoi_natRepr r
  have hu1 : uintOfInt (1 : Int) = 1 := by decide
  have hur : uintOfInt (r : Int) = r := uintOfInt_natCast r hr
  by_cases h0 : r = 0
  · subst h0
    simp [lookupA, decodeDataSet, List.foldlM, decodeField, h1, createdRecord,
      jsonUnmarshalEndpoints_empty, hu1, exceptBind_ok]
  · simp [lookupA, h0, decodeDataSet, List.foldlM, decodeField, hrr, createdRecord,
      jsonUnmarshalEndpoints_empty, hur, exceptBind_ok]

/-! ## Lemmas for the scale-down analysis -/

theorem scaleDownDestroyLoop_eq (b k : String) :
    ∀ (hosts : List String) (oracle : List Bool),
      scaleDownDestroyLoop hosts b k oracle =
        hosts.map fun h => Event.destroyReq h (destroyPath b k) := by
  intro hosts
  induction hosts with
  | nil => intro o; rfl
  | cons h hs ih => intro o; simp [scaleDownDestroyLoop, ih]

theorem strings_setMapElement (st : RedisState) (k f v : String) :
    (setMapElement st k f v).strings = st.strings := rfl

theorem versions_setMapElement (st : RedisState) (k f v : String) :
    (setMapElement st k f v).versions = st.versions := rfl

theorem versions_redisSetStr (st : RedisState) (k v : String) :
    (redisSetStr st k v).versions = st.versions := rfl

theorem versions_redisDel (st : RedisState) (k : String) :
    (redisDel st k).versions = st.versions := rfl

theorem versions_ite (c : Prop) [Decidable c] (a b : RedisState) :
    (ite c a b).versions = ite c a.versions b.versions := by split <;> rfl

theorem strings_ite (c : Prop) [Decidable c] (a b : RedisState) :
    (ite c a b).strings = ite c a.strings b.strings := by split <;> rfl

theorem versions_updateDataSetFunc (st : RedisState) (idv n dsc : String)
    (w : Nat) (cs : String) (tg : List String) (sbs sbc : List UrchinEndpoint)
    (t : Int) :
    (updateDataSetFunc st idv n dsc w cs tg sbs sbc t).versions = st.versions := by
  unfold updateDataSetFunc
  simp [versions_ite, versions_setMapElement, versions_redisSetStr, versions_redisDel]

theorem prefixedKey_ne_dirKey (segs : List String) (idv : String) :
    makeStorageKey segs StoragePrefixDataset ≠
      makeStorageKey ["replica", "seed-peer", idv] "" := by
  intro h
  have hh := congrArg List.head? (congrArg String.data h)
  have hR : (makeStorageKey ["replica", "seed-peer", idv] "").data.head? = some 'r' := rfl
  cases segs with
  | nil =>
    have hL : (makeStorageKey [] StoragePrefixDataset).data.head? = some 'u' := rfl
    rw [hL, hR] at hh
    exact absurd hh (by decide)
  | cons a as =>
    have hL : (makeStorageKey (a :: as) StoragePrefixDataset).data.head? = some 'u' := rfl
    rw [hL, hR] at hh
    exact absurd hh (by decide)

theorem dirLookup_updateDataSetFunc (st : RedisState) (idv n dsc : String)
    (w : Nat) (cs : String) (tg : List String) (sbs sbc : List UrchinEndpoint)
    (t : Int) (idv2 : String) :
    lookupA (updateDataSetFunc st idv n dsc w cs tg sbs sbc t).strings
      (makeStorageKey ["replica", "seed-peer", idv2] "") =
    lookupA st.strings (makeStorageKey ["replica", "seed-peer", idv2] "") := by
  simp only [updateDataSetFunc, strings_setMapElement, strings_ite, redisSetStr,
    redisDel, ite_self]
  by_cases h5 : tg.length > 0
  · rw [if_pos h5, lookupA_insertA_ne _ _ _ _ (prefixedKey_ne_dirKey _ idv2).symm,
      lookupA_removeA_ne _ _ _ (prefixedKey_ne_dirKey _ idv2).symm]
  · rw [if_neg h5]

theorem strings_scaleDownVersionsLoop (idv : String) (w : Nat) :
    ∀ (versions : List UrchinDataSetVersionInfo) (st st' : RedisState),
      scaleDownVersionsLoop idv w st versions = .ok st' → st'.strings = st.strings := by
  intro versions
  induction versions with
  | nil => intro st st' h; cases h; rfl
  | cons v rest ih =>
    intro st st' h
    rw [scaleDownVersionsLoop] at h
    rcases hdec : jsonUnmarshalEndpoints v.MetaCaches with e | l
    · simp only [hdec] at h
      cases h
    · simp only [hdec] at h
      by_cases hlen : l.length ≤ 0
      · rw [if_pos hlen] at h
        exact ih st st' h
      · rw [if_neg hlen] at h
        rcases hsl : goSliceTake l w with mc | m | m
        · simp only [hsl] at h
          have h2 := ih _ _ h
          exact h2
        · simp only [hsl] at h
          cases h
        · simp only [hsl] at h
          cases h

theorem scaleDownVersionsLoop_ok_exists (idv : String) (w : Nat) :
    ∀ (versions : List UrchinDataSetVersionInfo) (st : RedisState),
      (∀ v ∈ versions, ∃ l, jsonUnmarshalEndpoints v.MetaCaches = Except.ok l ∧
        (l = [] ∨ w ≤ l.length)) →
      ∃ st', scaleDownVersionsLoop idv w st versions = .ok st' := by
  intro versions
  induction versions with
  | nil => intro st _; exact ⟨st, rfl⟩
  | cons v rest ih =>
    intro st h
    rcases h v (by simp) with ⟨l, hdec, hcase⟩
    have hrest : ∀ v' ∈ rest, ∃ l, jsonUnmarshalEndpoints v'.MetaCaches = Except.ok l ∧
        (l = [] ∨ w ≤ l.length) := fun v' hv' => h v' (by simp [hv'])
    rw [scaleDownVersionsLoop]
    simp only [hdec]
    rcases hcase with hnil | hle
    · subst hnil
      rw [if_pos (by simp)]
      exact ih st hrest
    · by_cases hlen : l.length ≤ 0
      · rw [if_pos hlen]
        exact ih st hrest
      · rw [if_neg hlen, goSliceTake, if_pos hle]
        exact ih _ hrest

theorem scaleDownVersionsLoop_crash_of_bad (idv : String) (w : Nat) :
    ∀ (versions : List UrchinDataSetVersionInfo) (st : RedisState),
      (∀ v ∈ versions, ∃ l, jsonUnmarshalEndpoints v.MetaCaches = Except.ok l) →
      (∃ v ∈ versions, ∃ l, jsonUnmarshalEndpoints v.MetaCaches = Except.ok l ∧
        l ≠ [] ∧ l.length < w) →
      (scaleDownVersionsLoop idv w st versions).isCrash = true := by
  intro versions
  induction versions with
  | nil => intro st _ hbad; rcases hbad with ⟨v, hv, _⟩; cases hv
  | cons v rest ih =>
    intro st hdec hbad
    rcases hdec v (by simp) with ⟨l, hl⟩
    rw [scaleDownVersionsLoop]
    simp only [hl]
    by_cases hlen : l.length ≤ 0
    · rw [if_pos hlen]
      apply ih st (fun v' hv' => hdec v' (by simp [hv']))
      rcases hbad with ⟨vb, hvb, lb, hlb, hne, hlt⟩
      rcases List.mem_cons.mp hvb with rfl | hmem
      · rw [hl] at hlb
        cases hlb
        exact absurd (List.length_eq_zero.mp (Nat.le_zero.mp hlen)) hne
      · exact ⟨vb, hmem, lb, hlb, hne, hlt⟩
    · by_cases hw : w ≤ l.length
      · rw [if_neg hlen, goSliceTake, if_pos hw]
        apply ih _ (fun v' hv' => hdec v' (by simp [hv']))
        rcases hbad with ⟨vb, hvb, lb, hlb, hne, hlt⟩
        rcases List.mem_cons.mp hvb with rfl | hmem
        · rw [hl] at hlb
          cases hlb
          omega
        · exact ⟨vb, hmem, lb, hlb, hne, hlt⟩
      · rw [if_neg hlen, goSliceTake, if_neg hw]
        rfl



theorem isCrash_iff_exists (r : GoOutcome α) :
    r.isCrash = true ↔ ∃ m, r = .crash m := by
  cases r <;> simp [GoOutcome.isCrash]

theorem scaleDown_run_characterization
    (conf : ConfInfo) (perm : List String → List String) (st : RedisState)
    (t : Int) (idv n dsc : String) (w : Nat) (cs : String) (tg : List String)
    (sbs sbc : List UrchinEndpoint)
    (old : UrchinDataSetInfo) (hosts : List String)
    (src0 : UrchinEndpoint) (srest : List UrchinEndpoint) (b o : String)
    (hget : GetDataSetImpl st idv = Except.ok old)
    (hw : 0 < w) (hlt : w < old.Replica)
    (hsrc : old.ShareBlobSources = src0 :: srest)
    (hsplit : goSplitN2Dot src0.EndpointPath = [b, o])
    (hhosts : getReplicaHosts st idv = Except.ok hosts)
    (hwlen : w ≤ hosts.length)
    (hclen : w ≤ old.ShareBlobCaches.length)
    (hver : ∀ v ∈ listAllDataSetVersions st idv, ∃ l,
      jsonUnmarshalEndpoints v.MetaCaches = Except.ok l ∧ (l = [] ∨ w ≤ l.length)) :
    ∃ st4,
      st4.strings = (updateDataSetFunc
        (redisSetStr (setReplicaState st idv ReplicaScaleDown)
          (makeStorageKey ["replica", "seed-peer", idv] "")
          (jsonMarshalStrings (hosts.take w)))
        idv n dsc w cs tg sbs (old.ShareBlobCaches.take w) t).strings ∧
      ∀ dor' : List Bool,
        UpdateDataSetImpl conf perm st t idv n dsc w cs tg sbs sbc dor' =
        (GoOutcome.ok .done, setReplicaState st4 idv ReplicaNoScale,
          Event.dirWrite (makeStorageKey ["replica", "seed-peer", idv] "")
              (jsonMarshalStrings (hosts.take w)) ::
            (hosts.drop w).map (fun h => Event.destroyReq h (destroyPath b o))) := by
  have hcond : w > 0 ∧ old.Replica ≠ w := ⟨hw, by omega⟩
  have hns : ¬ (old.ShareBlobSources.length < 1) := by simp [hsrc]
  have hh1 : getReplicaHosts (setReplicaState st idv ReplicaScaleDown) idv =
      Except.ok hosts := hhosts
  have hsel : selectScaleDownReplicaHosts (setReplicaState st idv ReplicaScaleDown) idv w =
      (GoOutcome.ok (hosts.drop w),
       redisSetStr (setReplicaState st idv ReplicaScaleDown)
         (makeStorageKey ["replica", "seed-peer", idv] "")
         (jsonMarshalStrings (hosts.take w)),
       [Event.dirWrite (makeStorageKey ["replica", "seed-peer", idv] "")
         (jsonMarshalStrings (hosts.take w))]) := by
    rw [selectScaleDownReplicaHosts]
    simp only [hh1, goSliceTake, if_pos hwlen]
  have hcache : goSliceTake old.ShareBlobCaches w =
      GoOutcome.ok (old.ShareBlobCaches.take w) := by
    rw [goSliceTake, if_pos hclen]
  set st3 := updateDataSetFunc
    (redisSetStr (setReplicaState st idv ReplicaScaleDown)
      (makeStorageKey ["replica", "seed-peer", idv] "")
      (jsonMarshalStrings (hosts.take w)))
    idv n dsc w cs tg sbs (old.ShareBlobCaches.take w) t with hst3
  have hverlist : listAllDataSetVersions st3 idv = listAllDataSetVersions st idv := by
    rw [hst3]
    simp [listAllDataSetVersions, versions_updateDataSetFunc, versions_redisSetStr,
      versions_setMapElement, setReplicaState, redisSetStr]
  have hvd : ∃ st4, scaleDownDatasetVersionInfo st3 idv w = GoOutcome.ok st4 ∧
      st4.strings = st3.strings := by
    unfold scaleDownDatasetVersionInfo
    by_cases hv0 : (listAllDataSetVersions st3 idv).length < 1
    · exact ⟨st3, by rw [if_pos hv0], rfl⟩
    · rw [if_neg hv0]
      obtain ⟨st4, hst4⟩ := scaleDownVersionsLoop_ok_exists idv w
        (listAllDataSetVersions st3 idv) st3 (by rw [hverlist]; exact hver)
      exact ⟨st4, hst4, strings_scaleDownVersionsLoop idv w _ _ _ hst4⟩
  obtain ⟨st4, hst4, hst4s⟩ := hvd
  refine ⟨st4, hst4s, ?_⟩
  intro dor'
  rw [UpdateDataSetImpl]
  simp only [hget, if_pos hcond, if_neg hns, hsrc, List.headD_cons, hsplit,
    List.length_cons, List.drop_succ_cons, List.drop_zero, List.headD_cons,
    if_pos hlt, hsel, hcache, hst4]
  simp [scaleDownDestroyLoop_eq, hst3]


/-! ## Claim C2 -/

/-- A concrete created dataset: id `d1`, name `imagenet`, tags `cv`,`img`,
replica 2, created at time 100 on an empty store. -/
def exCreated : RedisState :=
  CreateDataSetStore {} "d1" 100 "imagenet" "dsc" 2 "lru" ["cv", "img"]

/-- The store after `DeleteDataSet` of `d1`. -/
def exDeleted : RedisState := DeleteDataSetStore exCreated "d1"

/-- The record `GetDataSetImpl` decodes for `exCreated`. -/
def exRecord : UrchinDataSetInfo :=
  { Id := "d1", Name := "imagenet", Desc := "dsc", Replica := 2,
    CacheStrategy := "lru", Tags := ["cv", "img"] }

/-- C2: after `DeleteDataSet("d1")` the name-prefix key, tag-prefix key,
creation-time sorted-set entry and primary hash are all absent — but the
subsequent `GetDataSetImpl("d1")` returns a SUCCESS carrying the empty
record, not a non-nil NotExists error: at `urchin_dataset.go:762-765` the
source logs "can not found" and executes `return UrchinDataSetInfo{}, err`
where `err` is provably `nil`.  This contradicts the claim's (and the
spec's) required error-kind NotExists, so the claim is recorded as a code
bug with this run as evidence. -/
theorem c2_delete_then_get_evidence :
    redisGetStr exDeleted "urchin:dataset:d1:match_prefix_name:imagenet" = none ∧
    redisGetStr exDeleted "urchin:dataset:d1:match_prefix_tags:cv_img" = none ∧
    lookupA ((lookupA exDeleted.zsets DatasetCreateTimeKey).getD []) "d1" = none ∧
    lookupA exDeleted.hashes "urchin:dataset:d1" = none ∧
    GetDataSetImpl exDeleted "d1" = Except.ok {} ∧
    ({} : UrchinDataSetInfo).Id = "" := by
  decide

/-! ## Claim C9 -/

/-- C9, counterexample: the claim asserts that every dataset with
`replica > 0` has a non-empty `share_blob_sources`, in particular right after
a successful `CreateDataSet`.  But `CreateDataSet` stores the literal `"[]"`
for `share_blob_sources` while clamping `replica` to at least 1: the record
read back from the concrete created dataset has `Replica = 2 > 0` and
`ShareBlobSources = []`, refuting the invariant at the post-create state. -/
theorem c9_counterexample :
    GetDataSetImpl exCreated "d1" = Except.ok exRecord ∧
    0 < exRecord.Replica ∧ exRecord.ShareBlobSources = [] := by
  decide

/-- C9, amended: immediately after a successful `CreateDataSet` the stored
record has `replica ≥ 1` (the create path clamps `replica` up to 1) but its
`share_blob_sources` list is EMPTY — the claimed invariant does not hold at
creation; it is only established later when non-empty sources are written,
and the replication controller guards against it by rejecting replica
changes while the list is empty. -/
theorem c9_replica_pos_but_sources_empty_after_create (idv : String) (t : Int)
    (n d : String) (r : Nat) (cs : String) (tg : List String)
    (hid : idv ≠ "") (hr : r < 2 ^ 64) (rec : UrchinDataSetInfo)
    (hrec : GetDataSetImpl (CreateDataSetStore {} idv t n d r cs tg) idv =
      Except.ok rec) :
    1 ≤ rec.Replica ∧ rec.ShareBlobSources = [] := by
  rw [getDataSet_after_create idv t n d r cs tg hid hr] at hrec
  cases hrec
  refine ⟨?_, rfl⟩
  by_cases h0 : r = 0
  · simp [createdRecord, h0]
  · simp [createdRecord, h0]
    omega

/-- C9, witness: the amended statement at the concrete created dataset. -/
theorem c9_witness : 1 ≤ exRecord.Replica ∧ exRecord.ShareBlobSources = [] :=
  c9_replica_pos_but_sources_empty_after_create "d1" 100 "imagenet" "dsc" 2 "lru"
    ["cv", "img"] (by decide) (by decide) exRecord (by decide)

/-! ## Claim C8 -/

/-- C8, counterexample: the claim says the create/get round-trip yields an
equal record for any tags list, including the empty list.  But
`strings.Join([], "_") = ""` and `strings.Split("", "_") = [""]`, so a
dataset created with the empty tag list reads back with `Tags = [""]`, not
`[]`. -/
theorem c8_counterexample :
    GetDataSetImpl (CreateDataSetStore {} "d8" 50 "nm" "dc" 1 "st" []) "d8" =
      Except.ok { Id := "d8", Name := "nm", Desc := "dc", Replica := 1,
                  CacheStrategy := "st", Tags := [""] } ∧
    ([""] : List String) ≠ [] := by
  decide

/-- C8, amended: for every create input with a NON-EMPTY tags list none of
whose tags contains `'_'` (and `replica < 2^64`, the width of Go `uint`),
creating and then reading back yields exactly the stored record: `tags`
round-trips through the `_`-join, `replica` round-trips through its decimal
encoding (with 0 clamped to 1 on write), and the endpoint lists — stored as
the literal `"[]"` by `CreateDataSet` — decode back to empty lists. -/
theorem c8_create_get_roundtrip (idv : String) (t : Int) (n d : String)
    (r : Nat) (cs : String) (tg : List String) (hid : idv ≠ "")
    (hr : r < 2 ^ 64) (hne : tg ≠ [])
    (hu : ∀ s ∈ tg, containsChar '_' s = false) :
    GetDataSetImpl (CreateDataSetStore {} idv t n d r cs tg) idv =
      Except.ok { Id := idv
                  Name := n
                  Desc := d
                  Replica := if r = 0 then 1 else r
                  CacheStrategy := cs
                  Tags := tg } := by
  rw [getDataSet_after_create idv t n d r cs tg hid hr, createdRecord,
    goSplit_goJoin tg hne hu]

/-- C8, witness: the amended round-trip at a concrete input. -/
theorem c8_witness :
    GetDataSetImpl (CreateDataSetStore {} "d8" 50 "nm" "dc" 2 "st" ["a", "b"]) "d8" =
      Except.ok { Id := "d8"
                  Name := "nm"
                  Desc := "dc"
                  Replica := 2
                  CacheStrategy := "st"
                  Tags := ["a", "b"] } :=
  c8_create_get_roundtrip "d8" 50 "nm" "dc" 2 "st" ["a", "b"] (by decide)
    (by decide) (by decide) (by decide)

/-! ## Claim C7 -/

/-- A store whose creation-time index holds an id with no primary hash. -/
def stGhost : RedisState := { zsets := [(DatasetCreateTimeKey, [("ghost", 5)])] }

/-- C7, counterexample: the claim says EVERY branch of the listing algorithm
silently drops an indexed id whose primary hash is gone.  In the
no-search/no-`order_by` branch the hydration loop
(`urchin_dataset.go:294-303`) appends `getDataSetById`'s result without any
check, so a dangling id contributes an empty placeholder record to the
returned list. -/
theorem c7_counterexample :
    listNoSearchNoOrder stGhost 1 0 0 10 0 10 = Except.ok [{}] ∧
    ({} : UrchinDataSetInfo).Id = "" := by
  decide

/-- C7, amended: in the branches that hydrate through `sortAndBuildResult`
(explicit `order_by` and/or `search_key`), an id whose primary hash no
longer exists is silently dropped — every record in the returned list has a
non-empty `Id` and the request does not fail — but in the
no-search/no-`order_by` branch such an id contributes an empty placeholder
record instead. -/
theorem c7_sortAndBuildResult_drops_dangling (st : RedisState) (orderBy : String)
    (sortBy : Int) (pageIndex pageSize : Nat) (sortSetKey : String)
    (ds : UrchinDataSetInfo)
    (hds : ds ∈ sortAndBuildResult st orderBy sortBy pageIndex pageSize sortSetKey) :
    ds.Id ≠ "" := by
  unfold sortAndBuildResult at hds
  have main : ∀ (members : List String) (acc : List UrchinDataSetInfo),
      (∀ e ∈ acc, e.Id ≠ "") →
      ∀ e ∈ members.foldl
        (fun acc m =>
          match getDataSetById st m with
          | .error _ => acc
          | .ok r => if r.Id = "" then acc else acc ++ [r]) acc, e.Id ≠ "" := by
    intro members
    induction members with
    | nil => intro acc hacc e he; exact hacc e he
    | cons m ms ih =>
      intro acc hacc e he
      refine ih _ ?_ e he
      intro e' he'
      rcases hget : getDataSetById st m with err | r
      · simp only [hget] at he'
        exact hacc e' he'
      · simp only [hget] at he'
        by_cases hide : r.Id = ""
        · simp only [if_pos hide] at he'
          exact hacc e' he'
        · simp only [if_neg hide] at he'
          rcases List.mem_append.mp he' with h | h
          · exact hacc e' h
          · rcases List.mem_singleton.mp h with rfl
            exact hide
  exact main _ [] (by intro e he; cases he) ds hds

/-- C7, witness: the amended statement applied to the listing of the concrete
created dataset, whose hydrated record is a member of the result. -/
theorem c7_witness : exRecord.Id ≠ "" :=
  c7_sortAndBuildResult_drops_dangling exCreated "" 1 0 10 DatasetCreateTimeKey
    exRecord (by decide)

/-! ## Concrete replication states -/

/-- A configuration with two replicable seed peers. -/
def conf2 : ConfInfo :=
  { maxReplicas := 5
    advertiseIP := "9.9.9.9"
    schedulers := some [⟨[⟨"1.1.1.1", 80⟩, ⟨"2.2.2.2", 80⟩]⟩] }

/-- A dataset `d1` with stored replica 1 whose replica directory already
contains both replicable hosts. -/
def stScaleUp : RedisState :=
  { hashes := [("urchin:dataset:d1",
      [("id", "d1"), ("replica", "1"),
       ("share_blob_sources", jsonMarshalEndpoints [⟨"ep", "b.o"⟩]),
       ("share_blob_caches", "[]"), ("tags", "t")])]
    strings := [("replica:seed-peer:d1",
      jsonMarshalStrings ["1.1.1.1:80", "2.2.2.2:80"])] }

/-- A version record with two cached endpoints. -/
def ver1 : UrchinDataSetVersionInfo :=
  { id := "v1"
    name := ""
    createAt := 0
    MetaSources := jsonMarshalEndpoints [⟨"s", "b.om"⟩]
    MetaCaches := jsonMarshalEndpoints [⟨"h1", "p1"⟩, ⟨"h2", "p2"⟩] }

/-- A dataset `d2` with stored replica 2, two cache endpoints, two directory
hosts, and one version. -/
def stScaleDown : RedisState :=
  { hashes := [("urchin:dataset:d2",
      [("id", "d2"), ("replica", "2"),
       ("share_blob_sources", jsonMarshalEndpoints [⟨"ep", "b.o"⟩]),
       ("share_blob_caches", jsonMarshalEndpoints [⟨"h1", "b.o"⟩, ⟨"h2", "b.o"⟩]),
       ("tags", "t")])]
    strings := [("replica:seed-peer:d2", jsonMarshalStrings ["A", "B"])]
    versions := [("d2", [ver1])] }

/-- The record `GetDataSetImpl` decodes from `stScaleDown`. -/
def oldRec2 : UrchinDataSetInfo :=
  { Id := "d2"
    Replica := 2
    Tags := ["t"]
    ShareBlobSources := [⟨"ep", "b.o"⟩]
    ShareBlobCaches := [⟨"h1", "b.o"⟩, ⟨"h2", "b.o"⟩] }

/-! ## Claim C3 -/

/-- C3: the claim says that when the replicable sources minus the current
replica hosts hold fewer than `wanted - current` elements,
`UpdateDataSetImpl` fails synchronously with an error (no crash) and
`replica_state` is reset to NoScale.  The code instead slices
`differenceSlice(replicable, hosts)[0 : wanted-current]` unchecked
(`urchin_dataset.go:1141`): with two replicable sources both already holding
the replica, stored replica 1 and `wanted = 2`, the difference is empty and
the slice panics with an index-out-of-range, and — since the deferred state
reset lives only inside the not-yet-spawned worker goroutine —
`replica_state` is left at `ScaleUp` (`"1"`), not reset.  The checked
guard at line 1136 only covers `wanted > |replicable|`, so the spec's
"fail synchronously and reset state" is the evident intent and the
unchecked slice a slip: recorded as a code bug, this run being the
evidence. -/
theorem c3_crash_evidence :
    (UpdateDataSetImpl conf2 id stScaleUp 200 "d1" "" "" 2 "" [] [] [] []).1 =
      GoOutcome.crash "slice bounds out of range" ∧
    getMapElement (UpdateDataSetImpl conf2 id stScaleUp 200 "d1" "" "" 2 "" [] [] [] []).2.1
      "urchin:dataset:d1" "replica_state" = natRepr ReplicaScaleUP := by
  decide

/-! ## Claim C6 -/

/-- C6: in every scale-down execution that reaches the destroy loop, the
replica-directory key is rewritten to the first `wanted` hosts strictly
before any `destroy_folder` request is dispatched (the `dirWrite` event
precedes the destroy events in the trace), every surplus host receives a
destroy request whatever the per-call outcomes, the directory key still
holds the trimmed host list after the run, and the final store state is
identical for every destroy-outcome oracle — a failed destroy neither rolls
back the directory, record or version updates nor prevents the remaining
destroys. -/
theorem c6_scaledown_directory_before_destroys
    (conf : ConfInfo) (perm : List String → List String) (st : RedisState)
    (t : Int) (idv n dsc : String) (w : Nat) (cs : String) (tg : List String)
    (sbs sbc : List UrchinEndpoint) (dor : List Bool)
    (old : UrchinDataSetInfo) (hosts : List String)
    (src0 : UrchinEndpoint) (srest : List UrchinEndpoint) (b o : String)
    (hget : GetDataSetImpl st idv = Except.ok old)
    (hw : 0 < w) (hlt : w < old.Replica)
    (hsrc : old.ShareBlobSources = src0 :: srest)
    (hsplit : goSplitN2Dot src0.EndpointPath = [b, o])
    (hhosts : getReplicaHosts st idv = Except.ok hosts)
    (hwlen : w ≤ hosts.length)
    (hclen : w ≤ old.ShareBlobCaches.length)
    (hver : ∀ v ∈ listAllDataSetVersions st idv, ∃ l,
      jsonUnmarshalEndpoints v.MetaCaches = Except.ok l ∧ (l = [] ∨ w ≤ l.length)) :
    (UpdateDataSetImpl conf perm st t idv n dsc w cs tg sbs sbc dor).1 =
      GoOutcome.ok .done ∧
    (UpdateDataSetImpl conf perm st t idv n dsc w cs tg sbs sbc dor).2.2 =
      Event.dirWrite (makeStorageKey ["replica", "seed-peer", idv] "")
          (jsonMarshalStrings (hosts.take w)) ::
        (hosts.drop w).map (fun h => Event.destroyReq h (destroyPath b o)) ∧
    redisGetStr (UpdateDataSetImpl conf perm st t idv n dsc w cs tg sbs sbc dor).2.1
        (makeStorageKey ["replica", "seed-peer", idv] "") =
      some (jsonMarshalStrings (hosts.take w)) ∧
    (UpdateDataSetImpl conf perm st t idv n dsc w cs tg sbs sbc dor).2.1 =
      (UpdateDataSetImpl conf perm st t idv n dsc w cs tg sbs sbc []).2.1 := by
  obtain ⟨st4, hst4s, hrun⟩ := scaleDown_run_characterization conf perm st t idv
    n dsc w cs tg sbs sbc old hosts src0 srest b o hget hw hlt hsrc hsplit
    hhosts hwlen hclen hver
  refine ⟨by rw [hrun dor], by rw [hrun dor], ?_, by rw [hrun dor, hrun []]⟩
  rw [hrun dor]
  show lookupA (setReplicaState st4 idv ReplicaNoScale).strings
      (makeStorageKey ["replica", "seed-peer", idv] "") = _
  have h1 : (setReplicaState st4 idv ReplicaNoScale).strings = st4.strings := rfl
  rw [h1, hst4s, dirLookup_updateDataSetFunc]
  exact lookupA_insertA_self _ _ _

/-- C6, witness: the theorem applied to the concrete scale-down of `d2` from
2 replicas to 1 with a failing destroy oracle. -/
theorem c6_witness :
    (UpdateDataSetImpl conf2 id stScaleDown 300 "d2" "" "" 1 "" [] [] [] [false]).1 =
      GoOutcome.ok .done ∧
    (UpdateDataSetImpl conf2 id stScaleDown 300 "d2" "" "" 1 "" [] [] [] [false]).2.2 =
      Event.dirWrite (makeStorageKey ["replica", "seed-peer", "d2"] "")
          (jsonMarshalStrings ((["A", "B"] : List String).take 1)) ::
        ((["A", "B"] : List String).drop 1).map
          (fun h => Event.destroyReq h (destroyPath "b" "o")) ∧
    redisGetStr (UpdateDataSetImpl conf2 id stScaleDown 300 "d2" "" "" 1 "" [] [] [] [false]).2.1
        (makeStorageKey ["replica", "seed-peer", "d2"] "") =
      some (jsonMarshalStrings ((["A", "B"] : List String).take 1)) ∧
    (UpdateDataSetImpl conf2 id stScaleDown 300 "d2" "" "" 1 "" [] [] [] [false]).2.1 =
      (UpdateDataSetImpl conf2 id stScaleDown 300 "d2" "" "" 1 "" [] [] [] []).2.1 :=
  c6_scaledown_directory_before_destroys conf2 id stScaleDown 300 "d2" "" "" 1 ""
    [] [] [] [false] oldRec2 ["A", "B"] ⟨"ep", "b.o"⟩ [] "b" "o" (by decide)
    (by decide) (by decide) (by decide) (by decide) (by decide) (by decide)
    (by decide)
    (by
      intro v hv
      rw [show listAllDataSetVersions stScaleDown "d2" = [ver1] from rfl] at hv
      rcases List.mem_singleton.mp hv with rfl
      exact ⟨[⟨"h1", "p1"⟩, ⟨"h2", "p2"⟩], by decide, Or.inr (by decide)⟩)

/-! ## Claim C10 -/

/-- C10: under the reach conditions of the scale-down branch (record found,
`0 < wanted < stored replica`, a splittable first blob source, a decodable
replica directory, all version `meta_caches` decodable), the run panics with
an out-of-range slice IF AND ONLY IF the precondition fails — i.e. the
stored host list is shorter than `wanted`, or `share_blob_caches` is shorter
than `wanted`, or some version's decoded `meta_caches` is non-empty yet
shorter than `wanted`.  Under the precondition every slice is in bounds and
the operation cannot abort out of range; without it the abort is a panic,
never an error value. -/
theorem c10_scaledown_totality
    (conf : ConfInfo) (perm : List String → List String) (st : RedisState)
    (t : Int) (idv n dsc : String) (w : Nat) (cs : String) (tg : List String)
    (sbs sbc : List UrchinEndpoint) (dor : List Bool)
    (old : UrchinDataSetInfo) (hosts : List String)
    (src0 : UrchinEndpoint) (srest : List UrchinEndpoint) (b o : String)
    (hget : GetDataSetImpl st idv = Except.ok old)
    (hw : 0 < w) (hlt : w < old.Replica)
    (hsrc : old.ShareBlobSources = src0 :: srest)
    (hsplit : goSplitN2Dot src0.EndpointPath = [b, o])
    (hhosts : getReplicaHosts st idv = Except.ok hosts)
    (hdec : ∀ v ∈ listAllDataSetVersions st idv, ∃ l,
      jsonUnmarshalEndpoints v.MetaCaches = Except.ok l) :
    (UpdateDataSetImpl conf perm st t idv n dsc w cs tg sbs sbc dor).1.isCrash = true ↔
      ¬ (w ≤ hosts.length ∧ w ≤ old.ShareBlobCaches.length ∧
         ∀ v ∈ listAllDataSetVersions st idv, ∀ l,
           jsonUnmarshalEndpoints v.MetaCaches = Except.ok l →
             (l = [] ∨ w ≤ l.length)) := by
  have hcond : w > 0 ∧ old.Replica ≠ w := ⟨hw, by omega⟩
  have hns : ¬ (old.ShareBlobSources.length < 1) := by simp [hsrc]
  have hh1 : getReplicaHosts (setReplicaState st idv ReplicaScaleDown) idv =
      Except.ok hosts := hhosts
  by_cases hwlen : w ≤ hosts.length
  · by_cases hclen : w ≤ old.ShareBlobCaches.length
    · by_cases hgood : ∀ v ∈ listAllDataSetVersions st idv, ∀ l,
          jsonUnmarshalEndpoints v.MetaCaches = Except.ok l → (l = [] ∨ w ≤ l.length)
      · obtain ⟨st4, _, hrun⟩ := scaleDown_run_characterization conf perm st t idv
          n dsc w cs tg sbs sbc old hosts src0 srest b o hget hw hlt hsrc hsplit
          hhosts hwlen hclen
          (fun v hv => by
            obtain ⟨l, hl⟩ := hdec v hv
            exact ⟨l, hl, hgood v hv l hl⟩)
        rw [hrun dor]
        simp [GoOutcome.isCrash, hwlen, hclen]
        intro v hv l hl hne
        rcases hgood v hv l hl with h | h
        · exact absurd h hne
        · exact h
      · push_neg at hgood
        obtain ⟨v, hv, l, hl, hlne, hllt⟩ := hgood
        have hsel : selectScaleDownReplicaHosts (setReplicaState st idv ReplicaScaleDown) idv w =
            (GoOutcome.ok (hosts.drop w),
             redisSetStr (setReplicaState st idv ReplicaScaleDown)
               (makeStorageKey ["replica", "seed-peer", idv] "")
               (jsonMarshalStrings (hosts.take w)),
             [Event.dirWrite (makeStorageKey ["replica", "seed-peer", idv] "")
               (jsonMarshalStrings (hosts.take w))]) := by
          rw [selectScaleDownReplicaHosts]
          simp only [hh1, goSliceTake, if_pos hwlen]
        have hcache : goSliceTake old.ShareBlobCaches w =
            GoOutcome.ok (old.ShareBlobCaches.take w) := by
          rw [goSliceTake, if_pos hclen]
        set st3 := updateDataSetFunc
          (redisSetStr (setReplicaState st idv ReplicaScaleDown)
            (makeStorageKey ["replica", "seed-peer", idv] "")
            (jsonMarshalStrings (hosts.take w)))
          idv n dsc w cs tg sbs (old.ShareBlobCaches.take w) t with hst3
        have hverlist : listAllDataSetVersions st3 idv = listAllDataSetVersions st idv := by
          rw [hst3]
          simp [listAllDataSetVersions, versions_updateDataSetFunc, versions_redisSetStr,
            versions_setMapElement, setReplicaState, redisSetStr]
        have hvercrash : (scaleDownDatasetVersionInfo st3 idv w).isCrash = true := by
          unfold scaleDownDatasetVersionInfo
          have hv1 : ¬ ((listAllDataSetVersions st3 idv).length < 1) := by
            rw [hverlist]
            have := List.length_pos.mpr (List.ne_nil_of_mem hv)
            omega
          rw [if_neg hv1, hverlist]
          exact scaleDownVersionsLoop_crash_of_bad idv w _ st3
            (by rw [hverlist] at *; exact hdec) ⟨v, hv, l, hl, hlne, hllt⟩
        obtain ⟨m, hm⟩ := (isCrash_iff_exists _).mp hvercrash
        rw [UpdateDataSetImpl]
        simp only [hget, if_pos hcond, if_neg hns, hsrc, List.headD_cons, hsplit,
          List.length_cons, List.drop_succ_cons, List.drop_zero, List.headD_cons,
          if_pos hlt, hsel, hcache, hst3] at *
        simp only [hm]
        simp [GoOutcome.isCrash, hwlen, hclen]
        exact ⟨v, hv, l, hl, hlne, hllt⟩
    · have hsel : selectScaleDownReplicaHosts (setReplicaState st idv ReplicaScaleDown) idv w =
          (GoOutcome.ok (hosts.drop w),
           redisSetStr (setReplicaState st idv ReplicaScaleDown)
             (makeStorageKey ["replica", "seed-peer", idv] "")
             (jsonMarshalStrings (hosts.take w)),
           [Event.dirWrite (makeStorageKey ["replica", "seed-peer", idv] "")
             (jsonMarshalStrings (hosts.take w))]) := by
        rw [selectScaleDownReplicaHosts]
        simp only [hh1, goSliceTake, if_pos hwlen]
      have hcache : goSliceTake old.ShareBlobCaches w =
          GoOutcome.crash "slice bounds out of range" := by
        rw [goSliceTake, if_neg hclen]
      rw [UpdateDataSetImpl]
      simp only [hget, if_pos hcond, if_neg hns, hsrc, List.headD_cons, hsplit,
        List.length_cons, List.drop_succ_cons, List.drop_zero, List.headD_cons,
        if_pos hlt, hsel, hcache]
      simp [GoOutcome.isCrash]
      exact fun h1 h2 => absurd h2 hclen
  · have hsel : selectScaleDownReplicaHosts (setReplicaState st idv ReplicaScaleDown) idv w =
        (GoOutcome.crash "slice bounds out of range",
         setReplicaState st idv ReplicaScaleDown, []) := by
      rw [selectScaleDownReplicaHosts]
      simp only [hh1, goSliceTake, if_neg hwlen]
    rw [UpdateDataSetImpl]
    simp only [hget, if_pos hcond, if_neg hns, hsrc, List.headD_cons, hsplit,
      List.length_cons, List.drop_succ_cons, List.drop_zero, List.headD_cons,
      if_pos hlt, hsel]
    simp [GoOutcome.isCrash]
    exact fun h1 => absurd h1 hwlen

/-- C10, witness: at the concrete state `stScaleDown` (two hosts, two caches,
one version with two cached endpoints) and `wanted = 1` the precondition
holds and the run does not panic. -/
theorem c10_witness :
    (UpdateDataSetImpl conf2 id stScaleDown 300 "d2" "" "" 1 "" [] [] [] [false]).1.isCrash = true ↔
      ¬ ((1 : Nat) ≤ (["A", "B"] : List String).length ∧
         1 ≤ oldRec2.ShareBlobCaches.length ∧
         ∀ v ∈ listAllDataSetVersions stScaleDown "d2", ∀ l,
           jsonUnmarshalEndpoints v.MetaCaches = Except.ok l →
             (l = [] ∨ 1 ≤ l.length)) :=
  c10_scaledown_totality conf2 id stScaleDown 300 "d2" "" "" 1 "" [] [] []
    [false] oldRec2 ["A", "B"] ⟨"ep", "b.o"⟩ [] "b" "o" (by decide) (by decide)
    (by decide) (by decide) (by decide) (by decide)
    (by
      intro v hv
      rw [show listAllDataSetVersions stScaleDown "d2" = [ver1] from rfl] at hv
      rcases List.mem_singleton.mp hv with rfl
      exact ⟨[⟨"h1", "p1"⟩, ⟨"h2", "p2"⟩], by decide⟩)

/-! ## Event-shape lemmas for the scale-up worker -/

theorem readCheckBody_events (evs : List Event) (rest : List HttpResp)
    (body : Option CheckBody) :
    ∀ e ∈ (readCheckBody evs rest body).1, e ∈ evs ∨ ∃ s, e = Event.sleep s := by
  rcases body with _ | b
  · intro e he; exact Or.inl he
  · simp only [readCheckBody]
    by_cases h1 : b.StatusCode = 1
    · rw [if_pos h1]
      intro e he
      rcases List.mem_append.mp he with h | h
      · exact Or.inl h
      · exact Or.inr ⟨20, List.mem_singleton.mp h⟩
    · rw [if_neg h1]
      by_cases h0 : b.StatusCode ≠ 0
      · rw [if_pos h0]
        intro e he; exact Or.inl he
      · rw [if_neg h0]
        intro e he; exact Or.inl he

theorem checkObjectStatus_events (host b k : String) (o : List HttpResp) :
    ∀ e ∈ (checkObjectStatus host b k o).1,
      e = Event.checkReq host (checkPath b k) ∨ ∃ s, e = Event.sleep s := by
  rcases hh : o.headD .transErr with _ | ⟨status, body⟩
  · simp only [checkObjectStatus, hh]
    intro e he
    simp only [List.mem_singleton] at he
    exact Or.inl he
  · simp only [checkObjectStatus, hh]
    by_cases hs : status / 100 ≠ 2
    · rw [if_pos hs]
      rcases hh2 : o.tail.headD .transErr with _ | ⟨status2, body2⟩
      · simp only [hh2]
        intro e he
        rcases he with _ | ⟨_, he⟩
        · exact Or.inl rfl
        · rcases he with _ | ⟨_, he⟩
          · exact Or.inr ⟨2, rfl⟩
          · rcases he with _ | ⟨_, he⟩
            · exact Or.inl rfl
            · cases he
      · simp only [hh2]
        by_cases hs2 : status2 / 100 ≠ 2
        · rw [if_pos hs2]
          intro e he
          rcases he with _ | ⟨_, he⟩
          · exact Or.inl rfl
          · rcases he with _ | ⟨_, he⟩
            · exact Or.inr ⟨2, rfl⟩
            · rcases he with _ | ⟨_, he⟩
              · exact Or.inl rfl
              · cases he
        · rw [if_neg hs2]
          intro e he
          rcases readCheckBody_events _ _ _ e he with h | h
          · rcases h with _ | ⟨_, h⟩
            · exact Or.inl rfl
            · rcases h with _ | ⟨_, h⟩
              · exact Or.inr ⟨2, rfl⟩
              · rcases h with _ | ⟨_, h⟩
                · exact Or.inl rfl
                · cases h
          · exact Or.inr h
    · rw [if_neg hs]
      intro e he
      rcases readCheckBody_events _ _ _ e he with h | h
      · rcases h with _ | ⟨_, h⟩
        · exact Or.inl rfl
        · cases h
      · exact Or.inr h

theorem pollLoop_events (host b k : String) :
    ∀ (fuel : Nat) (o : List HttpResp), ∀ e ∈ (pollLoop host b k fuel o).1,
      e = Event.checkReq host (checkPath b k) ∨ ∃ s, e = Event.sleep s := by
  intro fuel
  induction fuel with
  | zero => intro o e he; cases he
  | succ fuel ih =>
    intro o e he
    rw [pollLoop] at he
    rcases hc : checkObjectStatus host b k o with ⟨evs, o1, r⟩
    have hevs : (checkObjectStatus host b k o).1 = evs := by rw [hc]
    rcases r with m | ep
    case error =>
      simp only [hc] at he
      rcases he with _ | ⟨_, he⟩
      · exact Or.inr ⟨3, rfl⟩
      · exact checkObjectStatus_events host b k o e (hevs ▸ he)
    case ok =>
      rcases ep with _ | ep
      · simp only [hc] at he
        rcases hp : pollLoop host b k fuel o1 with ⟨evs2, o2, res⟩
        simp only [hp] at he
        rcases he with _ | ⟨_, he⟩
        · exact Or.inr ⟨3, rfl⟩
        · rcases List.mem_append.mp he with h | h
          · exact checkObjectStatus_events host b k o e (hevs ▸ h)
          · have := ih o1 e (by rw [hp]; exact h)
            exact this
      · simp only [hc] at he
        rcases he with _ | ⟨_, he⟩
        · exact Or.inr ⟨3, rfl⟩
        · exact checkObjectStatus_events host b k o e (hevs ▸ he)

theorem scaleUpSeed_events (host b k : String) (fuel : Nat) (o : List HttpResp) :
    ∀ e ∈ (scaleUpSeedPeerDataset host b k fuel o).1,
      e = Event.cacheReq host (cachePath b k) ∨
      e = Event.checkReq host (checkPath b k) ∨ ∃ s, e = Event.sleep s := by
  rcases hh : o.headD .transErr with _ | ⟨status, body⟩
  · simp only [scaleUpSeedPeerDataset, hh]
    intro e he
    simp only [List.mem_singleton] at he
    exact Or.inl he
  · simp only [scaleUpSeedPeerDataset, hh]
    by_cases hs : status / 100 ≠ 2
    · rw [if_pos hs]
      intro e he
      simp only [List.mem_singleton] at he
      exact Or.inl he
    · rw [if_neg hs]
      rcases hp : pollLoop host b k fuel o.tail with ⟨evs, o2, res⟩
      intro e he
      rcases he with _ | ⟨_, he⟩
      · exact Or.inl rfl
      · rcases pollLoop_events host b k fuel o.tail e (by rw [hp]; exact he) with h | h
        · exact Or.inr (Or.inl h)
        · exact Or.inr (Or.inr h)

theorem workerLoop_cacheReq_path (b k : String) (fuel : Nat) :
    ∀ (hosts : List String) (o : List HttpResp) (h p : String),
      Event.cacheReq h p ∈ (scaleUpWorkerLoop b k fuel hosts o).1 →
        p = cachePath b k := by
  intro hosts
  induction hosts with
  | nil => intro o h p hmem; cases hmem
  | cons hd hs ih =>
    intro o h p hmem
    have hseed : ∀ (o' : List HttpResp),
        Event.cacheReq h p ∈ (scaleUpSeedPeerDataset hd b k fuel o').1 →
          p = cachePath b k := by
      intro o' hm
      rcases scaleUpSeed_events hd b k fuel o' _ hm with h1 | h1 | h1
      · cases h1; rfl
      · cases h1
      · rcases h1 with ⟨s, h1⟩; cases h1
    rw [scaleUpWorkerLoop] at hmem
    rcases h1 : scaleUpSeedPeerDataset hd b k fuel o with ⟨evs1, o1, r1⟩
    rcases r1 with ep | m | _
    case found =>
      simp only [h1] at hmem
      rcases h2 : scaleUpWorkerLoop b k fuel hs o1 with ⟨evs2, o2, r2⟩
      simp only [h2] at hmem
      rcases r2 with eps | m2 | _ <;>
        (rcases List.mem_append.mp hmem with hm | hm
         · exact hseed o (by rw [h1]; exact hm)
         · exact ih o1 h p (by rw [h2]; exact hm))
    case failed =>
      simp only [h1] at hmem
      rcases h2 : scaleUpSeedPeerDataset hd b k fuel o1 with ⟨evs2, o2, r2⟩
      simp only [h2] at hmem
      rcases r2 with ep | m2 | _
      case found =>
        rcases h3 : scaleUpWorkerLoop b k fuel hs o2 with ⟨evs3, o3, r3⟩
        simp only [h3] at hmem
        have hmem2 : Event.cacheReq h p ∈ evs1 ++ Event.sleep 5 :: (evs2 ++ evs3) := by
          rcases r3 with eps | m3 | _ <;> simpa using hmem
        rcases List.mem_append.mp hmem2 with hm | hm
        · exact hseed o (by rw [h1]; exact hm)
        · rcases List.mem_cons.mp hm with heq | hm2
          · exact Event.noConfusion heq
          · rcases List.mem_append.mp hm2 with hm3 | hm3
            · exact hseed o1 (by rw [h2]; exact hm3)
            · exact ih o2 h p (by rw [h3]; exact hm3)
      case failed =>
        have hmem2 : Event.cacheReq h p ∈ evs1 ++ Event.sleep 5 :: evs2 := hmem
        rcases List.mem_append.mp hmem2 with hm | hm
        · exact hseed o (by rw [h1]; exact hm)
        · rcases List.mem_cons.mp hm with heq | hm2
          · exact Event.noConfusion heq
          · exact hseed o1 (by rw [h2]; exact hm2)
      case fuelOut =>
        have hmem2 : Event.cacheReq h p ∈ evs1 ++ Event.sleep 5 :: evs2 := hmem
        rcases List.mem_append.mp hmem2 with hm | hm
        · exact hseed o (by rw [h1]; exact hm)
        · rcases List.mem_cons.mp hm with heq | hm2
          · exact Event.noConfusion heq
          · exact hseed o1 (by rw [h2]; exact hm2)
    case fuelOut =>
      simp only [h1] at hmem
      exact hseed o (by rw [h1]; exact hmem)


/-! ## Claims C4 and C5 -/

def stScaleUp4 : RedisState :=
  { hashes := [("urchin:dataset:d4",
      [("id", "d4"), ("replica", "1"),
       ("share_blob_sources", jsonMarshalEndpoints [⟨"src.host", "bkt.obj"⟩]),
       ("share_blob_caches", "[]"), ("tags", "t")])]
    strings := [("replica:seed-peer:d4", jsonMarshalStrings ["1.1.1.1:80"])] }

/-- C4, counterexample: the claim says the cache request's bucket component
equals the bucket part of `share_blob_sources[0].endpoint_path` (the segment
before the first `'.'`).  The code passes
`sourceBucketObject[0] + "." + sourceEndpoint` as the bucket
(`urchin_dataset.go:698`): with source `(Endpoint src.host, EndpointPath
bkt.obj)` the spawned worker issues the cache POST at
`buckets/bkt.src.host/cache_folder/obj`, not the claimed
`buckets/bkt/cache_folder/obj`. -/
theorem c4_counterexample :
    (UpdateDataSetImpl conf2 id stScaleUp4 200 "d4" "" "" 2 "" [] [] [] []).1 =
      GoOutcome.ok (.spawned ["1.1.1.1:80"] ["2.2.2.2:80"] "bkt.src.host" "obj") ∧
    Event.cacheReq "2.2.2.2:80" "buckets/bkt.src.host/cache_folder/obj" ∈
      (scaleUpWorkerLoop "bkt.src.host" "obj" 3 ["2.2.2.2:80"]
        [.resp 200 none, .resp 200 (some ⟨0, "ep", "r", "p"⟩)]).1 ∧
    ("buckets/bkt.src.host/cache_folder/obj" : String) ≠
      "buckets/bkt/cache_folder/obj" := by
  decide

/-- C4, amended: for every host selected during scale-up, the `cache_folder`
request is issued with bucket component equal to the bucket part of
`share_blob_sources[0].endpoint_path` CONCATENATED with `"."` and
`share_blob_sources[0].endpoint` (the seed peer must know the origin), and
object key equal to the part after the first `'.'`: every cache request in
any worker run has path
`buckets/<bucket>.<endpoint>/cache_folder/<object_key>`. -/
theorem c4_cache_bucket_is_bucket_dot_endpoint
    (conf : ConfInfo) (perm : List String → List String) (st : RedisState)
    (t : Int) (idv n dsc : String) (w : Nat) (cs : String) (tg : List String)
    (sbs sbc : List UrchinEndpoint) (dor : List Bool)
    (old : UrchinDataSetInfo) (src0 : UrchinEndpoint)
    (srest : List UrchinEndpoint) (b o : String) (rh su : List String)
    (hget : GetDataSetImpl st idv = Except.ok old)
    (hw : 0 < w) (hne : old.Replica ≠ w) (hge : ¬ w < old.Replica)
    (hsrc : old.ShareBlobSources = src0 :: srest)
    (hsplit : goSplitN2Dot src0.EndpointPath = [b, o])
    (hsel : selectScaleUpReplicaHosts conf perm
      (setReplicaState st idv ReplicaScaleUP) idv w old.Replica = .ok (rh, su)) :
    (UpdateDataSetImpl conf perm st t idv n dsc w cs tg sbs sbc dor).1 =
      GoOutcome.ok (.spawned rh su (b ++ "." ++ src0.Endpoint) o) ∧
    ∀ (fuel : Nat) (oracle : List HttpResp) (hh pp : String),
      Event.cacheReq hh pp ∈
        (scaleUpWorkerLoop (b ++ "." ++ src0.Endpoint) o fuel su oracle).1 →
      pp = filepathJoin ["buckets", b ++ "." ++ src0.Endpoint, "cache_folder", o] := by
  have hcond : w > 0 ∧ old.Replica ≠ w := ⟨hw, hne⟩
  have hns : ¬ (old.ShareBlobSources.length < 1) := by simp [hsrc]
  constructor
  · rw [UpdateDataSetImpl]
    simp only [hget, if_pos hcond, if_neg hns, hsrc, List.headD_cons, hsplit,
      List.length_cons, List.drop_succ_cons, List.drop_zero, List.headD_cons,
      if_neg hge, hsel]
    simp
  · intro fuel oracle hh pp hmem
    exact (workerLoop_cacheReq_path _ _ fuel su oracle hh pp hmem).trans rfl

/-- C5, amended: after a successful cache request the poll sleeps 3 s before
each check.  A TRANSPORT error on either attempt surfaces immediately as an
error with no retry; only a non-2xx response triggers the single 2-second
retry, whose second failure (transport or non-2xx) surfaces as an error.  On
`StatusCode = 1` the poll sleeps 20 s and re-enters the loop (whose next
check is preceded by a further 3 s sleep); on `StatusCode = 0` it returns
the endpoint record `(DataEndpoint, DataRoot ++ "." ++ DataPath)`. -/
theorem c5_poll_retry_behaviour :
    (∀ (host b k : String) (fuel : Nat) (rest : List HttpResp),
      pollLoop host b k (fuel + 1) (.transErr :: rest) =
        ([.sleep 3, .checkReq host (checkPath b k)], rest,
          .failed "transport error")) ∧
    (∀ (host b k : String) (fuel : Nat) (rest : List HttpResp) (s : Nat)
       (bd : Option CheckBody),
      s / 100 ≠ 2 →
      pollLoop host b k (fuel + 1) (.resp s bd :: .transErr :: rest) =
        ([.sleep 3, .checkReq host (checkPath b k), .sleep 2,
            .checkReq host (checkPath b k)], rest, .failed "transport error")) ∧
    (∀ (host b k : String) (fuel : Nat) (rest : List HttpResp) (s s2 : Nat)
       (bd bd2 : Option CheckBody),
      s / 100 ≠ 2 → s2 / 100 ≠ 2 →
      pollLoop host b k (fuel + 1) (.resp s bd :: .resp s2 bd2 :: rest) =
        ([.sleep 3, .checkReq host (checkPath b k), .sleep 2,
            .checkReq host (checkPath b k)], rest, .failed "bad response status")) ∧
    (∀ (host b k : String) (fuel : Nat) (rest : List HttpResp) (s : Nat)
       (cb : CheckBody),
      s / 100 = 2 → cb.StatusCode = 1 →
      pollLoop host b k (fuel + 1) (.resp s (some cb) :: rest) =
        ([.sleep 3, .checkReq host (checkPath b k), .sleep 20] ++
            (pollLoop host b k fuel rest).1,
          (pollLoop host b k fuel rest).2.1, (pollLoop host b k fuel rest).2.2)) ∧
    (∀ (host b k : String) (fuel : Nat) (rest : List HttpResp) (s : Nat)
       (cb : CheckBody),
      s / 100 = 2 → cb.StatusCode = 0 →
      pollLoop host b k (fuel + 1) (.resp s (some cb) :: rest) =
        ([.sleep 3, .checkReq host (checkPath b k)], rest,
          .found ⟨cb.DataEndpoint, cb.DataRoot ++ "." ++ cb.DataPath⟩)) := by
  refine ⟨?_, ?_, ?_, ?_, ?_⟩
  · intro host b k fuel rest
    rw [pollLoop]
    simp [checkObjectStatus, List.headD_cons]
  · intro host b k fuel rest s bd hs
    rw [pollLoop]
    simp [checkObjectStatus, List.headD_cons, if_pos hs, hs]
  · intro host b k fuel rest s s2 bd2 bd hs hs2
    rw [pollLoop]
    rcases bd2 with _ | cb2
    · simp [checkObjectStatus, List.headD_cons, hs, hs2, readCheckBody]
    · simp [checkObjectStatus, List.headD_cons, hs, hs2, readCheckBody]
  · intro host b k fuel rest s cb hs h1
    rw [pollLoop]
    rcases hp : pollLoop host b k fuel rest with ⟨evs2, o2, res⟩
    simp [checkObjectStatus, List.headD_cons, hs, readCheckBody, h1, hp]
  · intro host b k fuel rest s cb hs h0
    rw [pollLoop]
    simp [checkObjectStatus, List.headD_cons, hs, readCheckBody, h0]

/-- C5, counterexample: the claim says a transport error is retried once
after a 2-second wait and only a second failure surfaces.  A transport error
on the very first check surfaces immediately: the trace holds a single check
request and no 2-second sleep. -/
theorem c5_counterexample :
    pollLoop "h" "bk" "ob" 5 [.transErr] =
      ([.sleep 3, .checkReq "h" (checkPath "bk" "ob")], [],
        .failed "transport error") ∧
    Event.sleep 2 ∉
      [Event.sleep 3, Event.checkReq "h" (checkPath "bk" "ob")] := by
  decide

/-- C5, witness: the amended behaviour applied at a concrete oracle — a 500
response followed by a transport error on the retry. -/
theorem c5_witness :
    pollLoop "h" "bk" "ob" 1 [.resp 500 none, .transErr] =
      ([.sleep 3, .checkReq "h" (checkPath "bk" "ob"), .sleep 2,
          .checkReq "h" (checkPath "bk" "ob")], [], .failed "transport error") :=
  c5_poll_retry_behaviour.2.1 "h" "bk" "ob" 0 [] 500 none (by decide)


/-- The record `GetDataSetImpl` decodes from `stScaleUp4`. -/
def oldRec4 : UrchinDataSetInfo :=
  { Id := "d4"
    Replica := 1
    Tags := ["t"]
    ShareBlobSources := [⟨"src.host", "bkt.obj"⟩] }

/-- C4, witness: the amended statement's synchronous conclusion at the
concrete scale-up of `d4`, showing the spawned bucket component is
`bkt.src.host`. -/
theorem c4_witness :
    (UpdateDataSetImpl conf2 id stScaleUp4 200 "d4" "" "" 2 "" [] [] [] []).1 =
      GoOutcome.ok (.spawned ["1.1.1.1:80"] ["2.2.2.2:80"] "bkt.src.host" "obj") :=
  (c4_cache_bucket_is_bucket_dot_endpoint conf2 id stScaleUp4 200 "d4" "" "" 2
    "" [] [] [] [] oldRec4 ⟨"src.host", "bkt.obj"⟩ [] "bkt" "obj"
    ["1.1.1.1:80"] ["2.2.2.2:80"] (by decide) (by decide) (by decide)
    (by decide) (by decide) (by decide) (by decide)).1

end Urchin
